import Mathlib

/-!
The statuscake command-line client: command dispatch and handlers.

A shallow embedding of `cmd/statuscake/main.go`.

* Go strings are Lean strings.  The only byte-level operations used by the
  program (`strconv.Atoi`, `strings.Split` on `","`) look at ASCII bytes only,
  so working on characters instead of UTF-8 bytes gives the same results.
* Go `int` is the 64-bit `int`; values are carried as `Int`, and `Atoi`
  reports a range error outside `[-2^63, 2^63 - 1]`.
* The API client is a collaborator: a table of methods over a state `σ`
  (a stub).  Every method call is recorded, with its outcome, in the trace of
  the world, together with everything written to standard output and to the
  logger.
* `log.Fatal` / `os.Exit` end the process: the handler monad `M` has an
  `exit` result which skips the rest of the computation.
-/

deriving instance DecidableEq for Except

namespace StatusCake

/-! ## Errors -/

/-- The two causes carried by a `*strconv.NumError`. -/
inductive NumErrKind
  | ErrSyntax
  | ErrRange
  deriving DecidableEq, Repr

/-- Go `error` values met by the program. -/
inductive GoError
  /-- `errors.New(msg)` / `fmt.Errorf(msg)`: an error whose text is `msg`. -/
  | text (msg : String)
  /-- `&strconv.NumError{Func, Num, Err}`. -/
  | num (fn : String) (input : String) (kind : NumErrKind)
  /-- `io.EOF`. -/
  | EOF
  /-- any other error value a collaborator may produce. -/
  | other (kind : String) (msg : String)
  deriving DecidableEq, Repr

/-- `fmt.Errorf` with a format that has no verbs. -/
def Errorf (msg : String) : GoError := GoError.text msg

/-! ## strconv.Atoi -/

/-- `maxUint64/10 + 1`: the smallest `n` with `n * 10 > maxUint64`. -/
def uintCutoff : Nat := (2 ^ 64 - 1) / 10 + 1

/-- `1<<64 - 1`. -/
def maxUint64 : Nat := 2 ^ 64 - 1

/-- The digit loop of `strconv.ParseUint(s, 10, 64)`, `n` being the value read
so far.  A byte outside `0..9` is a syntax error (letters are digits `≥ 10`,
rejected for base 10; `_` is only legal for base 0). -/
def parseUintLoop : Nat → List Char → Except NumErrKind Nat
  | n, [] => .ok n
  | n, c :: cs =>
    if '0' ≤ c ∧ c ≤ '9' then
      let d := c.toNat - '0'.toNat
      if n ≥ uintCutoff then .error .ErrRange
      else
        let n1 := n * 10 + d
        if n1 > maxUint64 then .error .ErrRange
        else parseUintLoop n1 cs
    else .error .ErrSyntax

/-- `strconv.ParseUint(s, 10, 64)`, the error reduced to its cause. -/
def ParseUint (s : List Char) : Except NumErrKind Nat :=
  match s with
  | [] => .error .ErrSyntax
  | _ => parseUintLoop 0 s

/-- `1 << 63`. -/
def intCutoff : Nat := 2 ^ 63

/-- `strconv.ParseInt(s, 10, 0)`, the error reduced to its cause.  On a range
error of `ParseUint` the value is `maxUint64`, which fails both range tests. -/
def ParseInt (s : List Char) : Except NumErrKind Int :=
  match s with
  | [] => .error .ErrSyntax
  | c :: cs =>
    let neg := c = '-'
    let body := if c = '+' ∨ c = '-' then cs else c :: cs
    match ParseUint body with
    | .error .ErrSyntax => .error .ErrSyntax
    | .error .ErrRange => .error .ErrRange
    | .ok un =>
      if ¬ neg ∧ un ≥ intCutoff then .error .ErrRange
      else if neg ∧ un > intCutoff then .error .ErrRange
      else .ok (if neg then - (un : Int) else (un : Int))

/-- `strconv.Atoi(s)`: the fast path for short inputs computes the same result
as `ParseInt(s, 10, 0)`; the error is a `NumError` with `Func = "Atoi"` and
`Num = s`. -/
def Atoi (s : String) : Except GoError Int :=
  match ParseInt s.data with
  | .ok i => .ok i
  | .error k => .error (GoError.num "Atoi" s k)

/-! ## strings.Split -/

/-- `strings.Index(s, ",")` followed by the two slices `s[:m]` and `s[m+1:]`:
`none` when there is no comma. -/
def cutComma : List Char → Option (List Char × List Char)
  | [] => none
  | c :: cs =>
    if c = ',' then some ([], cs)
    else
      match cutComma cs with
      | none => none
      | some (a, b) => some (c :: a, b)

/-- `strings.Count(s, ",")`. -/
def countComma : List Char → Nat
  | [] => 0
  | c :: cs => if c = ',' then countComma cs + 1 else countComma cs

/-- The loop of `strings.genSplit(s, ",", 0, n)`: at most `n` cuts at the first
comma of what remains; the remainder is the last element. -/
def genSplit : Nat → List Char → List (List Char)
  | 0, s => [s]
  | n + 1, s =>
    match cutComma s with
    | none => [s]
    | some (a, b) => a :: genSplit n b

/-- `strings.Split(s, ",")`: `genSplit` with `n = Count(s, ",") + 1` elements,
that is `Count(s, ",")` cuts. -/
def Split (s : String) : List String :=
  (genSplit (countComma s.data) s.data).map String.mk

/-- `strings.Join(elems, ",")` on character lists. -/
def joinComma : List (List Char) → List Char
  | [] => []
  | [a] => a
  | a :: b :: rest => a ++ ',' :: joinComma (b :: rest)

/-- `strings.Join(elems, ",")`. -/
def Join (elems : List String) : String :=
  String.mk (joinComma (elems.map String.data))

/-! ## fmt.Scanln with one string operand -/

/-- `fmt.isSpace`: the white-space table of package `fmt`. -/
def isSpace (r : Char) : Bool :=
  let n := r.toNat
  (0x0009 ≤ n && n ≤ 0x000d) || n == 0x0020 || n == 0x0085 || n == 0x00a0 ||
  n == 0x1680 || (0x2000 ≤ n && n ≤ 0x200a) || (0x2028 ≤ n && n ≤ 0x2029) ||
  n == 0x202f || n == 0x205f || n == 0x3000

/-- `(*ss).SkipSpace` with `nlIsSpace = false`: drops leading white space; a
newline met there is the error "unexpected newline".  Returns the error, if
any, and the input left. -/
def skipSpace : List Char → Option GoError × List Char
  | [] => (none, [])
  | r :: rs =>
    if r = '\n' then (some (GoError.text "unexpected newline"), rs)
    else if isSpace r then skipSpace rs
    else (none, r :: rs)

/-- `(*ss).token(true, notSpace)` after the spaces are skipped: the longest
run of non-space runes, and the input left. -/
def token : List Char → List Char × List Char
  | [] => ([], [])
  | r :: rs =>
    if isSpace r then ([], r :: rs)
    else ((r :: (token rs).1), (token rs).2)

/-- The end of `(*ss).doScan` with `nlIsEnd = true`: after the last operand
only white space may come before the newline or the end of input. -/
def expectNewline : List Char → Option GoError × List Char
  | [] => (none, [])
  | r :: rs =>
    if r = '\n' then (none, rs)
    else if isSpace r then expectNewline rs
    else (some (GoError.text "expected newline"), rs)

/-- `fmt.Scanln(&v)` for `v` a string, reading runes from `stdin`: the word
read or the error, and the input left. -/
def Scanln (stdin : List Char) : Except GoError String × List Char :=
  match skipSpace stdin with
  | (some e, rest) => (.error e, rest)
  | (none, []) => (.error GoError.EOF, [])
  | (none, r :: rs) =>
    match expectNewline (token (r :: rs)).2 with
    | (some e, rest) => (.error e, rest)
    | (none, rest) => (.ok (String.mk (token (r :: rs)).1), rest)

/-! ## Records of the API library -/

/-- A Go `float64`, kept as its bit pattern: the program only carries and
prints it. -/
structure Float64 where
  bits : Nat
  deriving DecidableEq, Repr

/-- Modelled from the spec: the fields of a library record that `main.go`
never names, kept as one uninterpreted value; `code = 0` stands for all of
them being zero. -/
structure Rest where
  code : Nat
  deriving DecidableEq, Repr

/-- Modelled from the spec: the declaration of `statuscake.Test` (UptimeTest,
identity `TestID`) is not part of the sources; the fields are those the spec
lists and `main.go` reads or writes, `rest` stands for all the others. -/
structure Test where
  TestID : Int
  Paused : Bool
  WebsiteName : String
  WebsiteURL : String
  PingURL : String
  TestType : String
  CheckRate : Int
  ContactGroup : List String
  NodeLocations : List String
  Status : String
  Uptime : Float64
  rest : Rest
  deriving DecidableEq, Repr

/-- Modelled from the spec: the declaration of `statuscake.PageSpeed`
(PageSpeedTest, identity `ID`) is not part of the sources; the fields are
those `main.go` reads or writes, `rest` stands for all the others. -/
structure PageSpeed where
  ID : Int
  Name : String
  Website_url : String
  Checkrate : Int
  Location_iso : String
  AlertSmaller : Int
  rest : Rest
  deriving DecidableEq, Repr

/-- Modelled from the spec: one entry of the `Data` list answered by
`PageSpeeds().All()`; `Requests` is `LatestStats.Requests`. -/
structure PageSpeedItem where
  ID : Int
  URL : String
  Title : String
  Requests : Int
  deriving DecidableEq, Repr

/-- Modelled from the spec: the value answered by `PageSpeeds().All()`. -/
structure PageSpeedList where
  Data : List PageSpeedItem
  deriving DecidableEq, Repr

/-- Modelled from the spec: the declaration of the SSL record (identity `ID`)
is not part of the sources. -/
structure Ssl where
  ID : Int
  Domain : String
  deriving DecidableEq, Repr

/-! ## The world: collaborator, input, observable effects -/

/-- A collaborator method call, with its argument. -/
inductive Call
  | testsAll
  | testsDetail (id : Int)
  | testsUpdate (t : Test)
  | testsDelete (id : Int)
  | pageSpeedsAll
  | pageSpeedsDetail (id : Int)
  | pageSpeedsCreate (t : PageSpeed)
  | pageSpeedsUpdate (t : PageSpeed)
  | pageSpeedsDelete (id : Int)
  | sslsAll
  deriving DecidableEq, Repr

/-- An operand of a print call, not rendered. -/
inductive Val
  | int (i : Int)
  | str (s : String)
  | float (f : Float64)
  | err (e : GoError)
  /-- the text `e.Error()`. -/
  | errText (e : GoError)
  | test (t : Test)
  | pageSpeed (t : PageSpeed)
  deriving DecidableEq, Repr

/-- What the process does that can be seen from outside, in order. -/
inductive Event
  /-- a collaborator call and the error it returned (`none` for `nil`). -/
  | call (c : Call) (err : Option GoError)
  /-- `fmt.Printf(format, args...)` on standard output. -/
  | printf (format : String) (args : List Val)
  /-- `fmt.Println(args...)` on standard output. -/
  | println (args : List Val)
  /-- the line written by `log.Fatalf(format, args...)` on standard error. -/
  | logPrintf (format : String) (args : List Val)
  /-- the line written by `log.Fatal(args...)` on standard error. -/
  | logPrint (args : List Val)
  deriving DecidableEq, Repr

/-- Modelled from the spec: the collaborator `*statuscake.Client`, whose
package is not part of the sources, with the methods `All`, `Detail`,
`Create`, `Update`, `Delete` that `main.go` calls on its three collections.
It is a stub with state `σ`: each method takes the state, answers a value or
an error, and leaves a new state.  A method that answers a `nil` error answers
a record (not a `nil` pointer). -/
structure Client (σ : Type) where
  testsAll : σ → Except GoError (List Test) × σ
  testsDetail : σ → Int → Except GoError Test × σ
  testsUpdate : σ → Test → Except GoError Test × σ
  testsDelete : σ → Int → Option GoError × σ
  pageSpeedsAll : σ → Except GoError PageSpeedList × σ
  pageSpeedsDetail : σ → Int → Except GoError PageSpeed × σ
  pageSpeedsCreate : σ → PageSpeed → Except GoError PageSpeed × σ
  pageSpeedsUpdate : σ → PageSpeed → Except GoError PageSpeed × σ
  pageSpeedsDelete : σ → Int → Option GoError × σ
  sslsAll : σ → Except GoError (List Ssl) × σ

/-- The state of the world around the process. -/
structure World (σ : Type) where
  /-- state of the collaborator. -/
  stub : σ
  /-- what is left to read on standard input. -/
  stdin : List Char
  /-- the events so far, oldest first. -/
  trace : List Event
  deriving DecidableEq, Repr

/-- The result of a step: a value, or the end of the process with an exit
code (`os.Exit`). -/
inductive Res (α : Type)
  | val (a : α)
  | exit (code : Int)
  deriving DecidableEq, Repr

/-- Computations of the process. -/
def M (σ : Type) (α : Type) : Type := World σ → Res α × World σ

/-- Sequencing: nothing runs after the process has ended. -/
def M.bind {σ α β : Type} (m : M σ α) (f : α → M σ β) : M σ β := fun w =>
  match m w with
  | (Res.val a, w1) => f a w1
  | (Res.exit code, w1) => (Res.exit code, w1)

/-- A computation without effect. -/
def M.pure {σ α : Type} (a : α) : M σ α := fun w => (Res.val a, w)

instance {σ : Type} : Monad (M σ) where
  pure := M.pure
  bind := M.bind

variable {σ : Type}

/-- Appends one event to the trace. -/
def emit (e : Event) : M σ Unit := fun w =>
  (Res.val (), { w with trace := w.trace ++ [e] })

/-- `fmt.Printf`. -/
def Printf (format : String) (args : List Val) : M σ Unit :=
  emit (Event.printf format args)

/-- `fmt.Println`. -/
def Println (args : List Val) : M σ Unit :=
  emit (Event.println args)

/-- `os.Exit(code)`. -/
def osExit {α : Type} (code : Int) : M σ α := fun w => (Res.exit code, w)

/-- `log.Fatal(args...)`: writes the line, then `os.Exit(1)`. -/
def logFatal {α : Type} (args : List Val) : M σ α := do
  emit (Event.logPrint args)
  osExit 1

/-- `log.Fatalf(format, args...)`: writes the line, then `os.Exit(1)`. -/
def logFatalf {α : Type} (format : String) (args : List Val) : M σ α := do
  emit (Event.logPrintf format args)
  osExit 1

/-- The error of a result, `none` for `nil`. -/
def errOf {α : Type} : Except GoError α → Option GoError
  | .ok _ => none
  | .error e => some e

/-- A call of a collaborator method answering a value and an error. -/
def invoke {α : Type} (k : Call) (f : σ → Except GoError α × σ) :
    M σ (Except GoError α) := fun w =>
  (Res.val (f w.stub).1,
    { w with stub := (f w.stub).2, trace := w.trace ++ [Event.call k (errOf (f w.stub).1)] })

/-- A call of a collaborator method answering only an error. -/
def invokeErr (k : Call) (f : σ → Option GoError × σ) : M σ (Option GoError) := fun w =>
  (Res.val (f w.stub).1,
    { w with stub := (f w.stub).2, trace := w.trace ++ [Event.call k (f w.stub).1] })

/-- `fmt.Scanln(&v)` on the standard input of the world. -/
def scanln : M σ (Except GoError String) := fun w =>
  (Res.val (Scanln w.stdin).1, { w with stdin := (Scanln w.stdin).2 })

/-- A `for _, x := range xs` loop. -/
def forEach {α : Type} (xs : List α) (body : α → M σ Unit) : M σ Unit :=
  match xs with
  | [] => pure ()
  | x :: rest => do
    body x
    forEach rest body

/-- `fmt.Sprint` of a `[]string`: the elements between brackets, separated by
a space. -/
def Sprint (l : List String) : String := "[" ++ " ".intercalate l ++ "]"

/-- `c.Tests().All()`. -/
def TestsAll (c : Client σ) : M σ (Except GoError (List Test)) :=
  invoke Call.testsAll c.testsAll

/-- `c.Tests().Detail(id)`. -/
def TestsDetail (c : Client σ) (id : Int) : M σ (Except GoError Test) :=
  invoke (Call.testsDetail id) (fun s => c.testsDetail s id)

/-- `c.Tests().Update(t)`. -/
def TestsUpdate (c : Client σ) (t : Test) : M σ (Except GoError Test) :=
  invoke (Call.testsUpdate t) (fun s => c.testsUpdate s t)

/-- `c.Tests().Delete(id)`. -/
def TestsDelete (c : Client σ) (id : Int) : M σ (Option GoError) :=
  invokeErr (Call.testsDelete id) (fun s => c.testsDelete s id)

/-- `c.PageSpeeds().All()`. -/
def PageSpeedsAll (c : Client σ) : M σ (Except GoError PageSpeedList) :=
  invoke Call.pageSpeedsAll c.pageSpeedsAll

/-- `c.PageSpeeds().Detail(id)`. -/
def PageSpeedsDetail (c : Client σ) (id : Int) : M σ (Except GoError PageSpeed) :=
  invoke (Call.pageSpeedsDetail id) (fun s => c.pageSpeedsDetail s id)

/-- `c.PageSpeeds().Create(t)`. -/
def PageSpeedsCreate (c : Client σ) (t : PageSpeed) : M σ (Except GoError PageSpeed) :=
  invoke (Call.pageSpeedsCreate t) (fun s => c.pageSpeedsCreate s t)

/-- `c.PageSpeeds().Update(t)`. -/
def PageSpeedsUpdate (c : Client σ) (t : PageSpeed) : M σ (Except GoError PageSpeed) :=
  invoke (Call.pageSpeedsUpdate t) (fun s => c.pageSpeedsUpdate s t)

/-- `c.PageSpeeds().Delete(id)`. -/
def PageSpeedsDelete (c : Client σ) (id : Int) : M σ (Option GoError) :=
  invokeErr (Call.pageSpeedsDelete id) (fun s => c.pageSpeedsDelete s id)

/-- `c.Ssls().All()`. -/
def SslsAll (c : Client σ) : M σ (Except GoError (List Ssl)) :=
  invoke Call.sslsAll c.sslsAll

/-! ## main.go -/

/-- `type command func(*statuscake.Client, ...string) error`. -/
abbrev Command (σ : Type) : Type := Client σ → List String → M σ (Option GoError)

/-- `colouredStatus`. -/
def colouredStatus (s : String) : String :=
  if s = "Up" then "\x1b[0;32m" ++ s ++ "\x1b[0m"
  else if s = "Down" then "\x1b[0;31m" ++ s ++ "\x1b[0m"
  else s

/-- `getEnv`, `env` being `os.Getenv`. -/
def getEnv (env : String → String) (name : String) : M σ String :=
  if env name = "" then logFatalf "`%s` env variable is required" [Val.str name]
  else pure (env name)

/-- `cmdList`. -/
def cmdList (c : Client σ) (_args : List String) : M σ (Option GoError) := do
  match (← TestsAll c) with
  | .error err => pure (some err)
  | .ok tests =>
    forEach tests (fun t => do
      let paused := if t.Paused then "yes" else "no"
      Printf "* %d: %s\n" [Val.int t.TestID, Val.str (colouredStatus t.Status)]
      Printf "  WebsiteName: %s\n" [Val.str t.WebsiteName]
      Printf "  TestType: %s\n" [Val.str t.TestType]
      Printf "  Paused: %s\n" [Val.str paused]
      Printf "  ContactGroup: %s\n" [Val.str (Sprint t.ContactGroup)]
      Printf "  Uptime: %f\n" [Val.float t.Uptime])
    pure none

/-- `cmdListSsl`. -/
def cmdListSsl (c : Client σ) (_args : List String) : M σ (Option GoError) := do
  match (← SslsAll c) with
  | .error err => pure (some err)
  | .ok tests =>
    forEach tests (fun t => do
      Printf "* %d: %s\n" [Val.int t.ID]
      Printf "  Domain: %s\n" [Val.str t.Domain])
    pure none

/-- `cmdListPg`. -/
def cmdListPg (c : Client σ) (_args : List String) : M σ (Option GoError) := do
  match (← PageSpeedsAll c) with
  | .error err => pure (some err)
  | .ok tests =>
    forEach tests.Data (fun t => do
      Printf "* %d \n" [Val.int t.ID]
      Printf "  URL: %s\n" [Val.str t.URL]
      Printf "  Name: %d \n" [Val.str t.Title]
      Println [Val.int t.Requests])
    pure none

/-- `cmdDetailPg`. -/
def cmdDetailPg (c : Client σ) (args : List String) : M σ (Option GoError) :=
  match args with
  | [a] =>
    match Atoi a with
    | .error err => pure (some err)
    | .ok id => do
      match (← PageSpeedsDetail c id) with
      | .error err => pure (some err)
      | .ok t =>
        Printf "* %d \n" [Val.int t.ID]
        Printf "* %d \n" [Val.str t.Website_url]
        Printf "* %d \n" [Val.int t.Checkrate]
        Printf "* %d \n" [Val.int t.AlertSmaller]
        Printf "* %d \n" [Val.str t.Location_iso]
        pure none
  | _ => pure (some (Errorf "command `detail` requires a single argument `TestID`"))

/-- `cmdDetail`. -/
def cmdDetail (c : Client σ) (args : List String) : M σ (Option GoError) :=
  match args with
  | [a] =>
    match Atoi a with
    | .error err => pure (some err)
    | .ok id => do
      match (← TestsDetail c id) with
      | .error err => pure (some err)
      | .ok t =>
        let paused := if t.Paused then "yes" else "no"
        Printf "* %d: %s\n" [Val.int t.TestID, Val.str (colouredStatus t.Status)]
        Printf "  WebsiteName: %s\n" [Val.str t.WebsiteName]
        Printf "  WebsiteURL: %s\n" [Val.str t.WebsiteURL]
        Printf "  PingURL: %s\n" [Val.str t.PingURL]
        Printf "  TestType: %s\n" [Val.str t.TestType]
        Printf "  Paused: %s\n" [Val.str paused]
        Printf "  ContactGroup: %s\n" [Val.str (Sprint t.ContactGroup)]
        Printf "  Uptime: %f\n" [Val.float t.Uptime]
        Printf "  NodeLocations: %s\n" [Val.str (Sprint t.NodeLocations)]
        pure none
  | _ => pure (some (Errorf "command `detail` requires a single argument `TestID`"))

/-- `cmdDelete`. -/
def cmdDelete (c : Client σ) (args : List String) : M σ (Option GoError) :=
  match args with
  | [a] =>
    match Atoi a with
    | .error err => pure (some err)
    | .ok id => TestsDelete c id
  | _ => pure (some (Errorf "command `delete` requires a single argument `TestID`"))

/-- `cmdDeletePg`. -/
def cmdDeletePg (c : Client σ) (args : List String) : M σ (Option GoError) :=
  match args with
  | [a] =>
    match Atoi a with
    | .error err => pure (some err)
    | .ok id => PageSpeedsDelete c id
  | _ => pure (some (Errorf "command `delete` requires a single argument `ID`"))

/-- `askString`: prints the prompt, reads one word with `fmt.Scanln`; a scan
error ends the process through `log.Fatal`. -/
def askString (name : String) : M σ String := do
  Printf "%s: " [Val.str name]
  match (← scanln) with
  | .error err => logFatal [Val.err err]
  | .ok v => pure v

/-- `askInt`: a word that `strconv.Atoi` rejects ends the process through
`log.Fatalf`. -/
def askInt (name : String) : M σ Int := do
  let v ← askString name
  match Atoi v with
  | .error _ => logFatalf "Invalid number `%s`" [Val.str v]
  | .ok i => pure i

/-- `cmdCreate`: the fields that the struct literal does not name are zero. -/
def cmdCreate (c : Client σ) (_args : List String) : M σ (Option GoError) := do
  let websiteName ← askString "WebsiteName"
  let websiteURL ← askString "WebsiteURL"
  let testType ← askString "TestType"
  let checkRate ← askInt "CheckRate"
  let contactGroupString ← askString "ContactGroup (comma separated list)"
  let contactGroup := Split contactGroupString
  let nodeLocationsString ← askString "NodeLocations (comma separated list)"
  let nodeLocations := Split nodeLocationsString
  let t : Test :=
    { TestID := 0, Paused := false, WebsiteName := websiteName, WebsiteURL := websiteURL,
      PingURL := "", TestType := testType, CheckRate := checkRate,
      ContactGroup := contactGroup, NodeLocations := nodeLocations,
      Status := "", Uptime := Float64.mk 0, rest := Rest.mk 0 }
  match (← TestsUpdate c t) with
  | .error err => pure (some err)
  | .ok t2 =>
    Printf "CREATED: \n%+v\n" [Val.test t2]
    pure none

/-- `cmdCreatePg`: the fields that the struct literal does not name are zero. -/
def cmdCreatePg (c : Client σ) (_args : List String) : M σ (Option GoError) := do
  let name ← askString "name"
  let websiteURL ← askString "WebsiteURL"
  let checkRate ← askInt "CheckRate"
  let locationIso ← askString "LocationIso"
  let t : PageSpeed :=
    { ID := 0, Name := name, Website_url := websiteURL, Checkrate := checkRate,
      Location_iso := locationIso, AlertSmaller := 0, rest := Rest.mk 0 }
  match (← PageSpeedsCreate c t) with
  | .error err => pure (some err)
  | .ok t2 =>
    Printf "CREATED: \n%+v\n" [Val.int t2.ID]
    pure none

/-- `cmdUpdatePg`. -/
def cmdUpdatePg (c : Client σ) (args : List String) : M σ (Option GoError) :=
  match args with
  | [a] =>
    match Atoi a with
    | .error err => pure (some err)
    | .ok id => do
      match (← PageSpeedsDetail c id) with
      | .error err => pure (some err)
      | .ok t =>
        let t := { t with ID := id }
        let v ← askString ("WebsiteName [" ++ t.Website_url ++ "]")
        let t := { t with Website_url := v }
        match (← PageSpeedsUpdate c t) with
        | .error err => pure (some err)
        | .ok t2 =>
          Printf "UPDATED: \n%+v\n" [Val.pageSpeed t2]
          pure none
  | _ => pure (some (Errorf "command `update` requires a single argument `TestID`"))

/-- `cmdUpdate`. -/
def cmdUpdate (c : Client σ) (args : List String) : M σ (Option GoError) :=
  match args with
  | [a] =>
    match Atoi a with
    | .error err => pure (some err)
    | .ok id => do
      match (← TestsDetail c id) with
      | .error err => pure (some err)
      | .ok t =>
        let t := { t with TestID := id }
        let v ← askString ("WebsiteName [" ++ t.WebsiteName ++ "]")
        let t := { t with WebsiteName := v }
        let v ← askString ("WebsiteURL [" ++ t.WebsiteURL ++ "]")
        let t := { t with WebsiteURL := v }
        let v ← askString ("TestType [" ++ t.TestType ++ "]")
        let t := { t with TestType := v }
        let i ← askInt ("CheckRate [" ++ toString t.CheckRate ++ "]")
        let t := { t with CheckRate := i }
        let contactGroupString ← askString "ContactGroup (comma separated list)"
        let t := { t with ContactGroup := Split contactGroupString }
        let nodeLocationsString ← askString "NodeLocations (comma separated list)"
        let t := { t with NodeLocations := Split nodeLocationsString }
        match (← TestsUpdate c t) with
        | .error err => pure (some err)
        | .ok t2 =>
          Printf "UPDATED: \n%+v\n" [Val.test t2]
          pure none
  | _ => pure (some (Errorf "command `update` requires a single argument `TestID`"))

/-- The table built by `init`: the keys of the map literal are distinct, so
looking a key up in the map is looking it up in this list. -/
def commands : List (String × Command σ) :=
  [ ("list", cmdList),
    ("listpagespeed", cmdListPg),
    ("listssl", cmdListSsl),
    ("detail", cmdDetail),
    ("detailpg", cmdDetailPg),
    ("delete", cmdDelete),
    ("deletepg", cmdDeletePg),
    ("create", cmdCreate),
    ("createpg", cmdCreatePg),
    ("update", cmdUpdate),
    ("updatepg", cmdUpdatePg) ]

/-- `usage`: `argv0` is `os.Args[0]`; `order` is the order in which the range
over the map yields the keys. -/
def usage (order : List String) (argv0 : String) : M σ Unit := do
  Printf "Usage:\n" []
  Printf "  %s COMMAND\n" [Val.str argv0]
  Printf "Available commands:\n" []
  forEach order (fun k => Printf "  %+v\n" [Val.str k])

/-- The lookup of `main` (`if cmd, ok := commands[os.Args[1]]; ok ... else ...`):
`verb` is `os.Args[1]`, `rest` is `os.Args[2:]`. -/
def runCommand (c : Client σ) (verb : String) (rest : List String) : M σ (Option GoError) :=
  match commands.lookup verb with
  | some cmd => cmd c rest
  | none => pure (some (GoError.text ("Unknown command `" ++ verb ++ "`")))

/-- Modelled from the spec: `statuscake.Auth`, the credentials handed to
`statuscake.New`, with the two fields `main.go` sets. -/
structure Auth where
  Username : String
  Apikey : String
  deriving DecidableEq, Repr

/-- `main`: `env` is `os.Getenv`, `New` is `statuscake.New`, `argv0` is
`os.Args[0]` and `argv` is `os.Args[1:]`. -/
def main (env : String → String) (New : Auth → Except GoError (Client σ))
    (order : List String) (argv0 : String) (argv : List String) : M σ Unit := do
  let username ← getEnv env "STATUSCAKE_USERNAME"
  let apikey ← getEnv env "STATUSCAKE_APIKEY"
  match argv with
  | [] => do
    usage order argv0
    osExit 1
  | verb :: rest =>
    match New { Username := username, Apikey := apikey } with
    | .error err => logFatal [Val.err err]
    | .ok c => do
      match (← runCommand c verb rest) with
      | some err => logFatalf "Error running command `%s`: %s" [Val.str verb, Val.errText err]
      | none => pure ()

/-! ## Vocabulary of the properties -/

/-- Whether an event is a collaborator call. -/
def isCall : Event → Bool
  | Event.call _ _ => true
  | _ => false

/-- The words read by `k` successive calls of `fmt.Scanln(&v)` that all
succeed, and the input left; `none` when one of them fails. -/
def readWords : Nat → List Char → Option (List String × List Char)
  | 0, inp => some ([], inp)
  | k + 1, inp =>
    match Scanln inp with
    | (.ok v, rest) =>
      match readWords k rest with
      | some (vs, out) => some (v :: vs, out)
      | none => none
    | (.error _, _) => none

/-- A run that ended with `out` after the events `es` stopped at the first
failed call: a failed call is the last event, and its error is what the
handler returned. -/
def failStop (out : Res (Option GoError)) : List Event → Prop
  | [] => True
  | Event.call _ (some e) :: rest => rest = [] ∧ out = Res.val (some e)
  | _ :: rest => failStop out rest

/-- The identity a call carries: the id asked for, or the identity field of
the record submitted; the list calls and `Create` carry none. -/
def callId : Call → Option Int
  | Call.testsDetail id => some id
  | Call.testsDelete id => some id
  | Call.testsUpdate t => some t.TestID
  | Call.pageSpeedsDetail id => some id
  | Call.pageSpeedsDelete id => some id
  | Call.pageSpeedsUpdate t => some t.ID
  | Call.testsAll => none
  | Call.pageSpeedsAll => none
  | Call.pageSpeedsCreate _ => none
  | Call.sslsAll => none

/-! ## Stubs used for the concrete runs -/

/-- A record with identity 7, as a stub may answer it. -/
def sampleTest : Test :=
  { TestID := 7, Paused := true, WebsiteName := "old", WebsiteURL := "http://old",
    PingURL := "ping", TestType := "HTTP", CheckRate := 300, ContactGroup := ["1"],
    NodeLocations := ["uk"], Status := "Up", Uptime := Float64.mk 5, rest := Rest.mk 9 }

/-- A page-speed record with identity 3, as a stub may answer it. -/
def samplePageSpeed : PageSpeed :=
  { ID := 3, Name := "n", Website_url := "http://old", Checkrate := 1,
    Location_iso := "uk", AlertSmaller := 4, rest := Rest.mk 1 }

/-- A stub that counts the calls made to it: `Detail` answers the sample
record whatever the id, the other methods succeed. -/
def stubOk : Client Nat where
  testsAll := fun n => (.ok [sampleTest], n + 1)
  testsDetail := fun n _ => (.ok sampleTest, n + 1)
  testsUpdate := fun n t => (.ok t, n + 1)
  testsDelete := fun n _ => (none, n + 1)
  pageSpeedsAll := fun n => (.ok (PageSpeedList.mk []), n + 1)
  pageSpeedsDetail := fun n _ => (.ok samplePageSpeed, n + 1)
  pageSpeedsCreate := fun n t => (.ok t, n + 1)
  pageSpeedsUpdate := fun n t => (.ok t, n + 1)
  pageSpeedsDelete := fun n _ => (none, n + 1)
  sslsAll := fun n => (.ok [], n + 1)

/-- The error answered by the failing stub. -/
def notFound : GoError := GoError.other "statuscake" "not found"

/-- A stub that counts the calls made to it and whose methods all fail. -/
def stubFail : Client Nat where
  testsAll := fun n => (.error notFound, n + 1)
  testsDetail := fun n _ => (.error notFound, n + 1)
  testsUpdate := fun n _ => (.error notFound, n + 1)
  testsDelete := fun n _ => (some notFound, n + 1)
  pageSpeedsAll := fun n => (.error notFound, n + 1)
  pageSpeedsDetail := fun n _ => (.error notFound, n + 1)
  pageSpeedsCreate := fun n _ => (.error notFound, n + 1)
  pageSpeedsUpdate := fun n _ => (.error notFound, n + 1)
  pageSpeedsDelete := fun n _ => (some notFound, n + 1)
  sslsAll := fun n => (.error notFound, n + 1)

/-- The world at the start of a run: no call made, nothing printed, `inp` on
standard input. -/
def startWorld (inp : String) : World Nat :=
  { stub := 0, stdin := inp.data, trace := [] }

/-- What is typed in the sample run of `update 42`: six answers, one a line. -/
def updateInput : String := "name\nurl\nTCP\n60\n1,2\nuk,,de\n"

/-- The record submitted by the sample run of `update 42` on `stubOk`. -/
def submittedSample : Test :=
  { sampleTest with
    TestID := 42, WebsiteName := "name", WebsiteURL := "url", TestType := "TCP",
    CheckRate := 60, ContactGroup := ["1", "2"], NodeLocations := ["uk", "", "de"] }

/-- What is typed in the sample run of `create`: six answers, one a line. -/
def createInput : String := "name\nurl\nHTTP\n60\na,b,c\nuk\n"

/-- The record submitted by the sample run of `create`. -/
def createdSample : Test :=
  { TestID := 0, Paused := false, WebsiteName := "name", WebsiteURL := "url", PingURL := "",
    TestType := "HTTP", CheckRate := 60, ContactGroup := ["a", "b", "c"],
    NodeLocations := ["uk"], Status := "", Uptime := Float64.mk 0, rest := Rest.mk 0 }

/-! ## Running a computation -/

theorem bind_apply {α β : Type} (m : M σ α) (f : α → M σ β) (w : World σ) :
    (m >>= f) w = match m w with
      | (Res.val a, w1) => f a w1
      | (Res.exit code, w1) => (Res.exit code, w1) := rfl

theorem pure_apply {α : Type} (a : α) (w : World σ) :
    (pure a : M σ α) w = (Res.val a, w) := rfl

theorem askString_apply (name : String) (w : World σ) :
    askString name w =
      match Scanln w.stdin with
      | (.ok v, rest) =>
        (Res.val v, { w with
          stdin := rest
          trace := w.trace ++ [Event.printf "%s: " [Val.str name]] })
      | (.error e, rest) =>
        (Res.exit 1, { w with
          stdin := rest
          trace := w.trace ++ [Event.printf "%s: " [Val.str name], Event.logPrint [Val.err e]] }) := by
  rcases h : Scanln w.stdin with ⟨r, rest⟩
  cases r <;>
    simp [askString, bind_apply, pure_apply, Printf, emit, scanln, h, logFatal, osExit]

/-! ## strings.Split -/

theorem countComma_eq_count (s : List Char) : countComma s = s.count ',' := by
  induction s with
  | nil => rfl
  | cons c cs ih =>
    by_cases hc : c = ','
    · subst hc
      simp [countComma, ih]
    · have hne : ¬ (c == ',') = true := by simpa using hc
      simp [countComma, hc, ih, List.count_cons, hne]

theorem cutComma_none (s : List Char) (h : countComma s = 0) : cutComma s = none := by
  induction s with
  | nil => rfl
  | cons c cs ih =>
    by_cases hc : c = ','
    · simp [countComma, hc] at h
    · simp only [countComma, hc, if_false] at h
      simp [cutComma, hc, ih h]

theorem cutComma_some (s : List Char) (n : Nat) (h : countComma s = n + 1) :
    ∃ a b, cutComma s = some (a, b) ∧ s = a ++ ',' :: b ∧ ',' ∉ a ∧ countComma b = n := by
  induction s with
  | nil => simp [countComma] at h
  | cons c cs ih =>
    by_cases hc : c = ','
    · subst hc
      refine ⟨[], cs, by simp [cutComma], by simp, by simp, ?_⟩
      simpa [countComma] using h
    · simp only [countComma, hc, if_false] at h
      obtain ⟨a, b, h1, h2, h3, h4⟩ := ih h
      refine ⟨c :: a, b, by simp [cutComma, hc, h1], by simp [h2], ?_, h4⟩
      simp only [List.mem_cons, not_or]
      exact ⟨fun hh => hc hh.symm, h3⟩

theorem genSplit_ne_nil (n : Nat) (s : List Char) : genSplit n s ≠ [] := by
  cases n with
  | zero => simp [genSplit]
  | succ n =>
    cases h : cutComma s with
    | none => simp [genSplit, h]
    | some p => simp [genSplit, h]

theorem joinComma_cons (a : List Char) (l : List (List Char)) (h : l ≠ []) :
    joinComma (a :: l) = a ++ ',' :: joinComma l := by
  cases l with
  | nil => exact absurd rfl h
  | cons b rest => rfl

theorem genSplit_spec (n : Nat) : ∀ s : List Char, countComma s = n →
    (genSplit n s).length = n + 1 ∧ (∀ x ∈ genSplit n s, ',' ∉ x) ∧
      joinComma (genSplit n s) = s := by
  induction n with
  | zero =>
    intro s h
    refine ⟨by simp [genSplit], ?_, by simp [genSplit, joinComma]⟩
    intro x hx
    simp only [genSplit, List.mem_singleton] at hx
    subst hx
    intro hmem
    have : 0 < List.count ',' x := List.count_pos_iff.mpr hmem
    rw [← countComma_eq_count] at this
    omega
  | succ n ih =>
    intro s h
    obtain ⟨a, b, h1, h2, h3, h4⟩ := cutComma_some s n h
    obtain ⟨i1, i2, i3⟩ := ih b h4
    refine ⟨by simp [genSplit, h1, i1], ?_, ?_⟩
    · intro x hx
      simp only [genSplit, h1, List.mem_cons] at hx
      rcases hx with hx | hx
      · subst hx
        exact h3
      · exact i2 x hx
    · simp only [genSplit, h1]
      rw [joinComma_cons a _ (genSplit_ne_nil n b), i3, h2]

theorem Split_spec (s : String) :
    (Split s).length = s.data.count ',' + 1 ∧ (∀ x ∈ Split s, ',' ∉ x.data) ∧
      Join (Split s) = s := by
  obtain ⟨h1, h2, h3⟩ := genSplit_spec (countComma s.data) s.data rfl
  refine ⟨by rw [← countComma_eq_count]; simp [Split, h1], ?_, ?_⟩
  · intro x hx
    simp only [Split, List.mem_map] at hx
    obtain ⟨y, hy, rfl⟩ := hx
    exact h2 y hy
  · have hmap : List.map String.data (List.map String.mk (genSplit (countComma s.data) s.data))
        = genSplit (countComma s.data) s.data := by
      rw [List.map_map]
      have : (String.data ∘ String.mk) = id := by
        funext l
        rfl
      rw [this, List.map_id]
    simp only [Join, Split, hmap, h3]

/-! ## The handlers, case by case -/

theorem cmdDetail_usage (c : Client σ) (args : List String) (w : World σ)
    (h : args.length ≠ 1) :
    cmdDetail c args w =
      (Res.val (some (Errorf "command `detail` requires a single argument `TestID`")), w) := by
  rcases args with _ | ⟨a, _ | ⟨b, rest⟩⟩
  · rfl
  · simp at h
  · rfl

theorem cmdDetailPg_usage (c : Client σ) (args : List String) (w : World σ)
    (h : args.length ≠ 1) :
    cmdDetailPg c args w =
      (Res.val (some (Errorf "command `detail` requires a single argument `TestID`")), w) := by
  rcases args with _ | ⟨a, _ | ⟨b, rest⟩⟩
  · rfl
  · simp at h
  · rfl

theorem cmdDelete_usage (c : Client σ) (args : List String) (w : World σ)
    (h : args.length ≠ 1) :
    cmdDelete c args w =
      (Res.val (some (Errorf "command `delete` requires a single argument `TestID`")), w) := by
  rcases args with _ | ⟨a, _ | ⟨b, rest⟩⟩
  · rfl
  · simp at h
  · rfl

theorem cmdDeletePg_usage (c : Client σ) (args : List String) (w : World σ)
    (h : args.length ≠ 1) :
    cmdDeletePg c args w =
      (Res.val (some (Errorf "command `delete` requires a single argument `ID`")), w) := by
  rcases args with _ | ⟨a, _ | ⟨b, rest⟩⟩
  · rfl
  · simp at h
  · rfl

theorem cmdUpdate_usage (c : Client σ) (args : List String) (w : World σ)
    (h : args.length ≠ 1) :
    cmdUpdate c args w =
      (Res.val (some (Errorf "command `update` requires a single argument `TestID`")), w) := by
  rcases args with _ | ⟨a, _ | ⟨b, rest⟩⟩
  · rfl
  · simp at h
  · rfl

theorem cmdUpdatePg_usage (c : Client σ) (args : List String) (w : World σ)
    (h : args.length ≠ 1) :
    cmdUpdatePg c args w =
      (Res.val (some (Errorf "command `update` requires a single argument `TestID`")), w) := by
  rcases args with _ | ⟨a, _ | ⟨b, rest⟩⟩
  · rfl
  · simp at h
  · rfl

theorem cmdDetail_atoi (c : Client σ) (a : String) (e : GoError) (w : World σ)
    (h : Atoi a = .error e) : cmdDetail c [a] w = (Res.val (some e), w) := by
  simp [cmdDetail, h, pure_apply]

theorem cmdDetailPg_atoi (c : Client σ) (a : String) (e : GoError) (w : World σ)
    (h : Atoi a = .error e) : cmdDetailPg c [a] w = (Res.val (some e), w) := by
  simp [cmdDetailPg, h, pure_apply]

theorem cmdDelete_atoi (c : Client σ) (a : String) (e : GoError) (w : World σ)
    (h : Atoi a = .error e) : cmdDelete c [a] w = (Res.val (some e), w) := by
  simp [cmdDelete, h, pure_apply]

theorem cmdDeletePg_atoi (c : Client σ) (a : String) (e : GoError) (w : World σ)
    (h : Atoi a = .error e) : cmdDeletePg c [a] w = (Res.val (some e), w) := by
  simp [cmdDeletePg, h, pure_apply]

theorem cmdUpdate_atoi (c : Client σ) (a : String) (e : GoError) (w : World σ)
    (h : Atoi a = .error e) : cmdUpdate c [a] w = (Res.val (some e), w) := by
  simp [cmdUpdate, h, pure_apply]

theorem cmdUpdatePg_atoi (c : Client σ) (a : String) (e : GoError) (w : World σ)
    (h : Atoi a = .error e) : cmdUpdatePg c [a] w = (Res.val (some e), w) := by
  simp [cmdUpdatePg, h, pure_apply]

theorem cmdDelete_ok (c : Client σ) (a : String) (id : Int) (w : World σ)
    (h : Atoi a = .ok id) :
    cmdDelete c [a] w =
      (Res.val (c.testsDelete w.stub id).1,
        { stub := (c.testsDelete w.stub id).2, stdin := w.stdin,
          trace := w.trace ++ [Event.call (Call.testsDelete id) (c.testsDelete w.stub id).1] }) := by
  simp [cmdDelete, h, TestsDelete, invokeErr]

theorem cmdDeletePg_ok (c : Client σ) (a : String) (id : Int) (w : World σ)
    (h : Atoi a = .ok id) :
    cmdDeletePg c [a] w =
      (Res.val (c.pageSpeedsDelete w.stub id).1,
        { stub := (c.pageSpeedsDelete w.stub id).2, stdin := w.stdin,
          trace := w.trace ++
            [Event.call (Call.pageSpeedsDelete id) (c.pageSpeedsDelete w.stub id).1] }) := by
  simp [cmdDeletePg, h, PageSpeedsDelete, invokeErr]

theorem cmdDetail_fail (c : Client σ) (a : String) (id : Int) (e : GoError) (s1 : σ)
    (w : World σ) (ha : Atoi a = .ok id) (hd : c.testsDetail w.stub id = (.error e, s1)) :
    cmdDetail c [a] w =
      (Res.val (some e),
        { stub := s1, stdin := w.stdin,
          trace := w.trace ++ [Event.call (Call.testsDetail id) (some e)] }) := by
  simp [cmdDetail, ha, hd, bind_apply, pure_apply, TestsDetail, invoke, errOf]

theorem cmdDetail_ok (c : Client σ) (a : String) (id : Int) (t : Test) (s1 : σ)
    (w : World σ) (ha : Atoi a = .ok id) (hd : c.testsDetail w.stub id = (.ok t, s1)) :
    ∃ ps, cmdDetail c [a] w =
      (Res.val none,
        { stub := s1, stdin := w.stdin,
          trace := w.trace ++ Event.call (Call.testsDetail id) none :: ps }) ∧
      ∀ e ∈ ps, isCall e = false := by
  simp [cmdDetail, ha, hd, bind_apply, pure_apply, TestsDetail, invoke, errOf, Printf, emit,
    isCall]

theorem cmdDetailPg_fail (c : Client σ) (a : String) (id : Int) (e : GoError) (s1 : σ)
    (w : World σ) (ha : Atoi a = .ok id) (hd : c.pageSpeedsDetail w.stub id = (.error e, s1)) :
    cmdDetailPg c [a] w =
      (Res.val (some e),
        { stub := s1, stdin := w.stdin,
          trace := w.trace ++ [Event.call (Call.pageSpeedsDetail id) (some e)] }) := by
  simp [cmdDetailPg, ha, hd, bind_apply, pure_apply, PageSpeedsDetail, invoke, errOf]

theorem cmdDetailPg_ok (c : Client σ) (a : String) (id : Int) (t : PageSpeed) (s1 : σ)
    (w : World σ) (ha : Atoi a = .ok id) (hd : c.pageSpeedsDetail w.stub id = (.ok t, s1)) :
    ∃ ps, cmdDetailPg c [a] w =
      (Res.val none,
        { stub := s1, stdin := w.stdin,
          trace := w.trace ++ Event.call (Call.pageSpeedsDetail id) none :: ps }) ∧
      ∀ e ∈ ps, isCall e = false := by
  simp [cmdDetailPg, ha, hd, bind_apply, pure_apply, PageSpeedsDetail, invoke, errOf, Printf,
    emit, isCall]

theorem cmdUpdate_fail (c : Client σ) (a : String) (id : Int) (e : GoError) (s1 : σ)
    (w : World σ) (ha : Atoi a = .ok id) (hd : c.testsDetail w.stub id = (.error e, s1)) :
    cmdUpdate c [a] w =
      (Res.val (some e),
        { stub := s1, stdin := w.stdin,
          trace := w.trace ++ [Event.call (Call.testsDetail id) (some e)] }) := by
  simp [cmdUpdate, ha, hd, bind_apply, pure_apply, TestsDetail, invoke, errOf]

theorem cmdUpdatePg_fail (c : Client σ) (a : String) (id : Int) (e : GoError) (s1 : σ)
    (w : World σ) (ha : Atoi a = .ok id) (hd : c.pageSpeedsDetail w.stub id = (.error e, s1)) :
    cmdUpdatePg c [a] w =
      (Res.val (some e),
        { stub := s1, stdin := w.stdin,
          trace := w.trace ++ [Event.call (Call.pageSpeedsDetail id) (some e)] }) := by
  simp [cmdUpdatePg, ha, hd, bind_apply, pure_apply, PageSpeedsDetail, invoke, errOf]

/-- The loop of a list handler: a body that only prints makes a loop that only
prints. -/
theorem forEach_quiet {α : Type} (body : α → M σ Unit)
    (hb : ∀ x (w : World σ), ∃ ps, body x w = (Res.val (), { w with trace := w.trace ++ ps }) ∧
      ∀ e ∈ ps, isCall e = false) (xs : List α) :
    ∀ w : World σ, ∃ ps, forEach xs body w = (Res.val (), { w with trace := w.trace ++ ps }) ∧
      ∀ e ∈ ps, isCall e = false := by
  induction xs with
  | nil =>
    intro w
    exact ⟨[], by simp [forEach, pure_apply], by simp⟩
  | cons x rest ih =>
    intro w
    obtain ⟨p1, h1, q1⟩ := hb x w
    obtain ⟨p2, h2, q2⟩ := ih { w with trace := w.trace ++ p1 }
    refine ⟨p1 ++ p2, ?_, ?_⟩
    · simp [forEach, bind_apply, h1, h2]
    · intro e he
      rcases List.mem_append.mp he with h | h
      · exact q1 e h
      · exact q2 e h

theorem cmdList_fail (c : Client σ) (args : List String) (e : GoError) (s1 : σ) (w : World σ)
    (hd : c.testsAll w.stub = (.error e, s1)) :
    cmdList c args w =
      (Res.val (some e),
        { stub := s1, stdin := w.stdin, trace := w.trace ++ [Event.call Call.testsAll (some e)] }) := by
  simp [cmdList, hd, bind_apply, pure_apply, TestsAll, invoke, errOf]

theorem cmdList_ok (c : Client σ) (args : List String) (ts : List Test) (s1 : σ) (w : World σ)
    (hd : c.testsAll w.stub = (.ok ts, s1)) :
    ∃ ps, cmdList c args w =
      (Res.val none,
        { stub := s1, stdin := w.stdin,
          trace := w.trace ++ Event.call Call.testsAll none :: ps }) ∧
      ∀ e ∈ ps, isCall e = false := by
  obtain ⟨ps, h, q⟩ := forEach_quiet (fun t : Test => (do
      let paused := if t.Paused then "yes" else "no"
      Printf "* %d: %s\n" [Val.int t.TestID, Val.str (colouredStatus t.Status)]
      Printf "  WebsiteName: %s\n" [Val.str t.WebsiteName]
      Printf "  TestType: %s\n" [Val.str t.TestType]
      Printf "  Paused: %s\n" [Val.str paused]
      Printf "  ContactGroup: %s\n" [Val.str (Sprint t.ContactGroup)]
      Printf "  Uptime: %f\n" [Val.float t.Uptime] : M σ Unit))
    (by
      intro x w
      simp only [bind_apply, Printf, emit, List.append_assoc]
      exact ⟨_, rfl, by simp [isCall]⟩) ts
    { stub := s1, stdin := w.stdin, trace := w.trace ++ [Event.call Call.testsAll none] }
  refine ⟨ps, ?_, q⟩
  simp only [cmdList, bind_apply, TestsAll, invoke, hd, errOf, h, pure_apply]
  simp

theorem cmdListSsl_fail (c : Client σ) (args : List String) (e : GoError) (s1 : σ)
    (w : World σ) (hd : c.sslsAll w.stub = (.error e, s1)) :
    cmdListSsl c args w =
      (Res.val (some e),
        { stub := s1, stdin := w.stdin, trace := w.trace ++ [Event.call Call.sslsAll (some e)] }) := by
  simp [cmdListSsl, hd, bind_apply, pure_apply, SslsAll, invoke, errOf]

theorem cmdListSsl_ok (c : Client σ) (args : List String) (ts : List Ssl) (s1 : σ)
    (w : World σ) (hd : c.sslsAll w.stub = (.ok ts, s1)) :
    ∃ ps, cmdListSsl c args w =
      (Res.val none,
        { stub := s1, stdin := w.stdin,
          trace := w.trace ++ Event.call Call.sslsAll none :: ps }) ∧
      ∀ e ∈ ps, isCall e = false := by
  obtain ⟨ps, h, q⟩ := forEach_quiet (fun t : Ssl => (do
      Printf "* %d: %s\n" [Val.int t.ID]
      Printf "  Domain: %s\n" [Val.str t.Domain] : M σ Unit))
    (by
      intro x w
      simp only [bind_apply, Printf, emit, List.append_assoc]
      exact ⟨_, rfl, by simp [isCall]⟩) ts
    { stub := s1, stdin := w.stdin, trace := w.trace ++ [Event.call Call.sslsAll none] }
  refine ⟨ps, ?_, q⟩
  simp only [cmdListSsl, bind_apply, SslsAll, invoke, hd, errOf, h, pure_apply]
  simp

theorem cmdListPg_fail (c : Client σ) (args : List String) (e : GoError) (s1 : σ)
    (w : World σ) (hd : c.pageSpeedsAll w.stub = (.error e, s1)) :
    cmdListPg c args w =
      (Res.val (some e),
        { stub := s1, stdin := w.stdin,
          trace := w.trace ++ [Event.call Call.pageSpeedsAll (some e)] }) := by
  simp [cmdListPg, hd, bind_apply, pure_apply, PageSpeedsAll, invoke, errOf]

theorem cmdListPg_ok (c : Client σ) (args : List String) (ts : PageSpeedList) (s1 : σ)
    (w : World σ) (hd : c.pageSpeedsAll w.stub = (.ok ts, s1)) :
    ∃ ps, cmdListPg c args w =
      (Res.val none,
        { stub := s1, stdin := w.stdin,
          trace := w.trace ++ Event.call Call.pageSpeedsAll none :: ps }) ∧
      ∀ e ∈ ps, isCall e = false := by
  obtain ⟨ps, h, q⟩ := forEach_quiet (fun t : PageSpeedItem => (do
      Printf "* %d \n" [Val.int t.ID]
      Printf "  URL: %s\n" [Val.str t.URL]
      Printf "  Name: %d \n" [Val.str t.Title]
      Println [Val.int t.Requests] : M σ Unit))
    (by
      intro x w
      simp only [bind_apply, Printf, Println, emit, List.append_assoc]
      exact ⟨_, rfl, by simp [isCall]⟩) ts.Data
    { stub := s1, stdin := w.stdin, trace := w.trace ++ [Event.call Call.pageSpeedsAll none] }
  refine ⟨ps, ?_, q⟩
  simp only [cmdListPg, bind_apply, PageSpeedsAll, invoke, hd, errOf, h, pure_apply]
  simp

/-! ## The interactive handlers -/

/-- `cmdUpdate` once the record is fetched: either a prompt ends the process
before any further call, or the six answers are read and the record is
submitted. -/
theorem cmdUpdate_run (c : Client σ) (a : String) (id : Int) (R : Test) (s1 : σ) (w : World σ)
    (ha : Atoi a = .ok id) (hd : c.testsDetail w.stub id = (.ok R, s1)) :
    (∃ inp ps, cmdUpdate c [a] w =
        (Res.exit 1, { stub := s1, stdin := inp,
                       trace := w.trace ++ Event.call (Call.testsDetail id) none :: ps }) ∧
        ∀ e ∈ ps, isCall e = false) ∨
    (∃ a1 a2 a3 a4 a5 a6 n rest T ps qs,
        readWords 6 w.stdin = some ([a1, a2, a3, a4, a5, a6], rest) ∧ Atoi a4 = .ok n ∧
        T = { R with TestID := id, WebsiteName := a1, WebsiteURL := a2, TestType := a3,
                     CheckRate := n, ContactGroup := Split a5, NodeLocations := Split a6 } ∧
        cmdUpdate c [a] w =
          (Res.val (errOf (c.testsUpdate s1 T).1),
           { stub := (c.testsUpdate s1 T).2, stdin := rest,
             trace := w.trace ++ Event.call (Call.testsDetail id) none ::
               (ps ++ Event.call (Call.testsUpdate T) (errOf (c.testsUpdate s1 T).1) :: qs) }) ∧
        (∀ e ∈ ps, isCall e = false) ∧ (∀ e ∈ qs, isCall e = false) ∧
        (∀ e, errOf (c.testsUpdate s1 T).1 = some e → qs = [])) := by
  rcases h1 : Scanln w.stdin with ⟨r1, i1⟩
  rcases h2 : Scanln i1 with ⟨r2, i2⟩
  rcases h3 : Scanln i2 with ⟨r3, i3⟩
  rcases h4 : Scanln i3 with ⟨r4, i4⟩
  rcases h5 : Scanln i4 with ⟨r5, i5⟩
  rcases h6 : Scanln i5 with ⟨r6, i6⟩
  cases r1 with
  | error e =>
    left
    simp [cmdUpdate, ha, hd, bind_apply, pure_apply, TestsDetail, invoke, askString_apply, h1,
      errOf]
    exact ⟨_, _, ⟨rfl, rfl⟩, by simp [isCall]⟩
  | ok a1 =>
  cases r2 with
  | error e =>
    left
    simp [cmdUpdate, ha, hd, bind_apply, pure_apply, TestsDetail, invoke, askString_apply, h1,
      h2, errOf]
    exact ⟨_, _, ⟨rfl, rfl⟩, by simp [isCall]⟩
  | ok a2 =>
  cases r3 with
  | error e =>
    left
    simp [cmdUpdate, ha, hd, bind_apply, pure_apply, TestsDetail, invoke, askString_apply, h1,
      h2, h3, errOf]
    exact ⟨_, _, ⟨rfl, rfl⟩, by simp [isCall]⟩
  | ok a3 =>
  cases r4 with
  | error e =>
    left
    simp [cmdUpdate, ha, hd, bind_apply, pure_apply, TestsDetail, invoke, askString_apply,
      askInt, h1, h2, h3, h4, errOf]
    exact ⟨_, _, ⟨rfl, rfl⟩, by simp [isCall]⟩
  | ok a4 =>
  cases hn : Atoi a4 with
  | error e =>
    left
    simp [cmdUpdate, ha, hd, bind_apply, pure_apply, TestsDetail, invoke, askString_apply,
      askInt, h1, h2, h3, h4, hn, errOf, logFatalf, emit, osExit]
    exact ⟨_, _, ⟨rfl, rfl⟩, by simp [isCall]⟩
  | ok n =>
  cases r5 with
  | error e =>
    left
    simp [cmdUpdate, ha, hd, bind_apply, pure_apply, TestsDetail, invoke, askString_apply,
      askInt, h1, h2, h3, h4, hn, h5, errOf]
    exact ⟨_, _, ⟨rfl, rfl⟩, by simp [isCall]⟩
  | ok a5 =>
  cases r6 with
  | error e =>
    left
    simp [cmdUpdate, ha, hd, bind_apply, pure_apply, TestsDetail, invoke, askString_apply,
      askInt, h1, h2, h3, h4, hn, h5, h6, errOf]
    exact ⟨_, _, ⟨rfl, rfl⟩, by simp [isCall]⟩
  | ok a6 =>
    right
    rcases hu : c.testsUpdate s1 { R with
        TestID := id, WebsiteName := a1, WebsiteURL := a2, TestType := a3,
        CheckRate := n, ContactGroup := Split a5, NodeLocations := Split a6 } with ⟨ru, s2⟩
    cases ru with
    | error e =>
      refine ⟨a1, a2, a3, a4, a5, a6, n, i6, _,
        [Event.printf "%s: " [Val.str ("WebsiteName [" ++ R.WebsiteName ++ "]")],
         Event.printf "%s: " [Val.str ("WebsiteURL [" ++ R.WebsiteURL ++ "]")],
         Event.printf "%s: " [Val.str ("TestType [" ++ R.TestType ++ "]")],
         Event.printf "%s: " [Val.str ("CheckRate [" ++ toString R.CheckRate ++ "]")],
         Event.printf "%s: " [Val.str "ContactGroup (comma separated list)"],
         Event.printf "%s: " [Val.str "NodeLocations (comma separated list)"]], [],
        ?_, hn, rfl, ?_, ?_, ?_, ?_⟩
      · simp [readWords, h1, h2, h3, h4, h5, h6]
      · simp [cmdUpdate, ha, hd, bind_apply, pure_apply, TestsDetail, TestsUpdate, invoke,
          askString_apply, askInt, h1, h2, h3, h4, hn, h5, h6, errOf, hu, Printf, emit]
      · simp [isCall]
      · simp
      · simp
    | ok t2 =>
      refine ⟨a1, a2, a3, a4, a5, a6, n, i6, _,
        [Event.printf "%s: " [Val.str ("WebsiteName [" ++ R.WebsiteName ++ "]")],
         Event.printf "%s: " [Val.str ("WebsiteURL [" ++ R.WebsiteURL ++ "]")],
         Event.printf "%s: " [Val.str ("TestType [" ++ R.TestType ++ "]")],
         Event.printf "%s: " [Val.str ("CheckRate [" ++ toString R.CheckRate ++ "]")],
         Event.printf "%s: " [Val.str "ContactGroup (comma separated list)"],
         Event.printf "%s: " [Val.str "NodeLocations (comma separated list)"]],
        [Event.printf "UPDATED: \n%+v\n" [Val.test t2]],
        ?_, hn, rfl, ?_, ?_, ?_, ?_⟩
      · simp [readWords, h1, h2, h3, h4, h5, h6]
      · simp [cmdUpdate, ha, hd, bind_apply, pure_apply, TestsDetail, TestsUpdate, invoke,
          askString_apply, askInt, h1, h2, h3, h4, hn, h5, h6, errOf, hu, Printf, emit]
      · simp [isCall]
      · simp [isCall]
      · simp [hu, errOf]

/-- `cmdUpdatePg` once the record is fetched. -/
theorem cmdUpdatePg_run (c : Client σ) (a : String) (id : Int) (R : PageSpeed) (s1 : σ)
    (w : World σ) (ha : Atoi a = .ok id) (hd : c.pageSpeedsDetail w.stub id = (.ok R, s1)) :
    (∃ inp ps, cmdUpdatePg c [a] w =
        (Res.exit 1, { stub := s1, stdin := inp,
                       trace := w.trace ++ Event.call (Call.pageSpeedsDetail id) none :: ps }) ∧
        ∀ e ∈ ps, isCall e = false) ∨
    (∃ a1 rest T ps qs,
        readWords 1 w.stdin = some ([a1], rest) ∧
        T = { R with ID := id, Website_url := a1 } ∧
        cmdUpdatePg c [a] w =
          (Res.val (errOf (c.pageSpeedsUpdate s1 T).1),
           { stub := (c.pageSpeedsUpdate s1 T).2, stdin := rest,
             trace := w.trace ++ Event.call (Call.pageSpeedsDetail id) none ::
               (ps ++ Event.call (Call.pageSpeedsUpdate T)
                  (errOf (c.pageSpeedsUpdate s1 T).1) :: qs) }) ∧
        (∀ e ∈ ps, isCall e = false) ∧ (∀ e ∈ qs, isCall e = false) ∧
        (∀ e, errOf (c.pageSpeedsUpdate s1 T).1 = some e → qs = [])) := by
  rcases h1 : Scanln w.stdin with ⟨r1, i1⟩
  cases r1 with
  | error e =>
    left
    simp [cmdUpdatePg, ha, hd, bind_apply, pure_apply, PageSpeedsDetail, invoke,
      askString_apply, h1, errOf]
    exact ⟨_, _, ⟨rfl, rfl⟩, by simp [isCall]⟩
  | ok a1 =>
    right
    rcases hu : c.pageSpeedsUpdate s1 { R with ID := id, Website_url := a1 } with ⟨ru, s2⟩
    cases ru with
    | error e =>
      refine ⟨a1, i1, _,
        [Event.printf "%s: " [Val.str ("WebsiteName [" ++ R.Website_url ++ "]")]], [],
        ?_, rfl, ?_, ?_, ?_, ?_⟩
      · simp [readWords, h1]
      · simp [cmdUpdatePg, ha, hd, bind_apply, pure_apply, PageSpeedsDetail, PageSpeedsUpdate,
          invoke, askString_apply, h1, errOf, hu, Printf, emit]
      · simp [isCall]
      · simp
      · simp
    | ok t2 =>
      refine ⟨a1, i1, _,
        [Event.printf "%s: " [Val.str ("WebsiteName [" ++ R.Website_url ++ "]")]],
        [Event.printf "UPDATED: \n%+v\n" [Val.pageSpeed t2]],
        ?_, rfl, ?_, ?_, ?_, ?_⟩
      · simp [readWords, h1]
      · simp [cmdUpdatePg, ha, hd, bind_apply, pure_apply, PageSpeedsDetail, PageSpeedsUpdate,
          invoke, askString_apply, h1, errOf, hu, Printf, emit]
      · simp [isCall]
      · simp [isCall]
      · simp [hu, errOf]

/-- `cmdCreate`: either a prompt ends the process before any call, or the six
answers are read and the record is submitted. -/
theorem cmdCreate_run (c : Client σ) (args : List String) (w : World σ) :
    (∃ inp ps, cmdCreate c args w =
        (Res.exit 1, { stub := w.stub, stdin := inp, trace := w.trace ++ ps }) ∧
        ∀ e ∈ ps, isCall e = false) ∨
    (∃ a1 a2 a3 a4 a5 a6 n rest T ps qs,
        readWords 6 w.stdin = some ([a1, a2, a3, a4, a5, a6], rest) ∧ Atoi a4 = .ok n ∧
        T = { TestID := 0, Paused := false, WebsiteName := a1, WebsiteURL := a2, PingURL := "",
              TestType := a3, CheckRate := n, ContactGroup := Split a5,
              NodeLocations := Split a6, Status := "", Uptime := Float64.mk 0,
              rest := Rest.mk 0 } ∧
        cmdCreate c args w =
          (Res.val (errOf (c.testsUpdate w.stub T).1),
           { stub := (c.testsUpdate w.stub T).2, stdin := rest,
             trace := w.trace ++
               (ps ++ Event.call (Call.testsUpdate T) (errOf (c.testsUpdate w.stub T).1) :: qs) }) ∧
        (∀ e ∈ ps, isCall e = false) ∧ (∀ e ∈ qs, isCall e = false) ∧
        (∀ e, errOf (c.testsUpdate w.stub T).1 = some e → qs = [])) := by
  rcases h1 : Scanln w.stdin with ⟨r1, i1⟩
  rcases h2 : Scanln i1 with ⟨r2, i2⟩
  rcases h3 : Scanln i2 with ⟨r3, i3⟩
  rcases h4 : Scanln i3 with ⟨r4, i4⟩
  rcases h5 : Scanln i4 with ⟨r5, i5⟩
  rcases h6 : Scanln i5 with ⟨r6, i6⟩
  cases r1 with
  | error e =>
    left
    simp [cmdCreate, bind_apply, pure_apply, askString_apply, h1]
    exact ⟨_, _, ⟨rfl, rfl⟩, by simp [isCall]⟩
  | ok a1 =>
  cases r2 with
  | error e =>
    left
    simp [cmdCreate, bind_apply, pure_apply, askString_apply, h1, h2]
    exact ⟨_, _, ⟨rfl, rfl⟩, by simp [isCall]⟩
  | ok a2 =>
  cases r3 with
  | error e =>
    left
    simp [cmdCreate, bind_apply, pure_apply, askString_apply, h1, h2, h3]
    exact ⟨_, _, ⟨rfl, rfl⟩, by simp [isCall]⟩
  | ok a3 =>
  cases r4 with
  | error e =>
    left
    simp [cmdCreate, bind_apply, pure_apply, askString_apply, askInt, h1, h2, h3, h4]
    exact ⟨_, _, ⟨rfl, rfl⟩, by simp [isCall]⟩
  | ok a4 =>
  cases hn : Atoi a4 with
  | error e =>
    left
    simp [cmdCreate, bind_apply, pure_apply, askString_apply, askInt, h1, h2, h3, h4, hn,
      logFatalf, emit, osExit]
    exact ⟨_, _, ⟨rfl, rfl⟩, by simp [isCall]⟩
  | ok n =>
  cases r5 with
  | error e =>
    left
    simp [cmdCreate, bind_apply, pure_apply, askString_apply, askInt, h1, h2, h3, h4, hn, h5]
    exact ⟨_, _, ⟨rfl, rfl⟩, by simp [isCall]⟩
  | ok a5 =>
  cases r6 with
  | error e =>
    left
    simp [cmdCreate, bind_apply, pure_apply, askString_apply, askInt, h1, h2, h3, h4, hn, h5,
      h6]
    exact ⟨_, _, ⟨rfl, rfl⟩, by simp [isCall]⟩
  | ok a6 =>
    right
    rcases hu : c.testsUpdate w.stub
      { TestID := 0, Paused := false, WebsiteName := a1, WebsiteURL := a2, PingURL := "",
        TestType := a3, CheckRate := n, ContactGroup := Split a5,
        NodeLocations := Split a6, Status := "", Uptime := Float64.mk 0,
        rest := Rest.mk 0 } with ⟨ru, s2⟩
    cases ru with
    | error e =>
      refine ⟨a1, a2, a3, a4, a5, a6, n, i6, _,
        [Event.printf "%s: " [Val.str "WebsiteName"],
         Event.printf "%s: " [Val.str "WebsiteURL"],
         Event.printf "%s: " [Val.str "TestType"],
         Event.printf "%s: " [Val.str "CheckRate"],
         Event.printf "%s: " [Val.str "ContactGroup (comma separated list)"],
         Event.printf "%s: " [Val.str "NodeLocations (comma separated list)"]], [],
        ?_, hn, rfl, ?_, ?_, ?_, ?_⟩
      · simp [readWords, h1, h2, h3, h4, h5, h6]
      · simp [cmdCreate, bind_apply, pure_apply, TestsUpdate, invoke, askString_apply, askInt,
          h1, h2, h3, h4, hn, h5, h6, errOf, hu, Printf, emit]
      · simp [isCall]
      · simp
      · simp
    | ok t2 =>
      refine ⟨a1, a2, a3, a4, a5, a6, n, i6, _,
        [Event.printf "%s: " [Val.str "WebsiteName"],
         Event.printf "%s: " [Val.str "WebsiteURL"],
         Event.printf "%s: " [Val.str "TestType"],
         Event.printf "%s: " [Val.str "CheckRate"],
         Event.printf "%s: " [Val.str "ContactGroup (comma separated list)"],
         Event.printf "%s: " [Val.str "NodeLocations (comma separated list)"]],
        [Event.printf "CREATED: \n%+v\n" [Val.test t2]],
        ?_, hn, rfl, ?_, ?_, ?_, ?_⟩
      · simp [readWords, h1, h2, h3, h4, h5, h6]
      · simp [cmdCreate, bind_apply, pure_apply, TestsUpdate, invoke, askString_apply, askInt,
          h1, h2, h3, h4, hn, h5, h6, errOf, hu, Printf, emit]
      · simp [isCall]
      · simp [isCall]
      · simp [hu, errOf]

/-- `cmdCreatePg`: either a prompt ends the process before any call, or the
four answers are read and the record is submitted. -/
theorem cmdCreatePg_run (c : Client σ) (args : List String) (w : World σ) :
    (∃ inp ps, cmdCreatePg c args w =
        (Res.exit 1, { stub := w.stub, stdin := inp, trace := w.trace ++ ps }) ∧
        ∀ e ∈ ps, isCall e = false) ∨
    (∃ a1 a2 a3 a4 n rest T ps qs,
        readWords 4 w.stdin = some ([a1, a2, a3, a4], rest) ∧ Atoi a3 = .ok n ∧
        T = { ID := 0, Name := a1, Website_url := a2, Checkrate := n, Location_iso := a4,
              AlertSmaller := 0, rest := Rest.mk 0 } ∧
        cmdCreatePg c args w =
          (Res.val (errOf (c.pageSpeedsCreate w.stub T).1),
           { stub := (c.pageSpeedsCreate w.stub T).2, stdin := rest,
             trace := w.trace ++
               (ps ++ Event.call (Call.pageSpeedsCreate T)
                  (errOf (c.pageSpeedsCreate w.stub T).1) :: qs) }) ∧
        (∀ e ∈ ps, isCall e = false) ∧ (∀ e ∈ qs, isCall e = false) ∧
        (∀ e, errOf (c.pageSpeedsCreate w.stub T).1 = some e → qs = [])) := by
  rcases h1 : Scanln w.stdin with ⟨r1, i1⟩
  rcases h2 : Scanln i1 with ⟨r2, i2⟩
  rcases h3 : Scanln i2 with ⟨r3, i3⟩
  rcases h4 : Scanln i3 with ⟨r4, i4⟩
  cases r1 with
  | error e =>
    left
    simp [cmdCreatePg, bind_apply, pure_apply, askString_apply, h1]
    exact ⟨_, _, ⟨rfl, rfl⟩, by simp [isCall]⟩
  | ok a1 =>
  cases r2 with
  | error e =>
    left
    simp [cmdCreatePg, bind_apply, pure_apply, askString_apply, h1, h2]
    exact ⟨_, _, ⟨rfl, rfl⟩, by simp [isCall]⟩
  | ok a2 =>
  cases r3 with
  | error e =>
    left
    simp [cmdCreatePg, bind_apply, pure_apply, askString_apply, askInt, h1, h2, h3]
    exact ⟨_, _, ⟨rfl, rfl⟩, by simp [isCall]⟩
  | ok a3 =>
  cases hn : Atoi a3 with
  | error e =>
    left
    simp [cmdCreatePg, bind_apply, pure_apply, askString_apply, askInt, h1, h2, h3, hn,
      logFatalf, emit, osExit]
    exact ⟨_, _, ⟨rfl, rfl⟩, by simp [isCall]⟩
  | ok n =>
  cases r4 with
  | error e =>
    left
    simp [cmdCreatePg, bind_apply, pure_apply, askString_apply, askInt, h1, h2, h3, hn, h4]
    exact ⟨_, _, ⟨rfl, rfl⟩, by simp [isCall]⟩
  | ok a4 =>
    right
    rcases hu : c.pageSpeedsCreate w.stub
      { ID := 0, Name := a1, Website_url := a2, Checkrate := n, Location_iso := a4,
        AlertSmaller := 0, rest := Rest.mk 0 } with ⟨ru, s2⟩
    cases ru with
    | error e =>
      refine ⟨a1, a2, a3, a4, n, i4, _,
        [Event.printf "%s: " [Val.str "name"],
         Event.printf "%s: " [Val.str "WebsiteURL"],
         Event.printf "%s: " [Val.str "CheckRate"],
         Event.printf "%s: " [Val.str "LocationIso"]], [],
        ?_, hn, rfl, ?_, ?_, ?_, ?_⟩
      · simp [readWords, h1, h2, h3, h4]
      · simp [cmdCreatePg, bind_apply, pure_apply, PageSpeedsCreate, invoke, askString_apply,
          askInt, h1, h2, h3, h4, hn, errOf, hu, Printf, emit]
      · simp [isCall]
      · simp
      · simp
    | ok t2 =>
      refine ⟨a1, a2, a3, a4, n, i4, _,
        [Event.printf "%s: " [Val.str "name"],
         Event.printf "%s: " [Val.str "WebsiteURL"],
         Event.printf "%s: " [Val.str "CheckRate"],
         Event.printf "%s: " [Val.str "LocationIso"]],
        [Event.printf "CREATED: \n%+v\n" [Val.int t2.ID]],
        ?_, hn, rfl, ?_, ?_, ?_, ?_⟩
      · simp [readWords, h1, h2, h3, h4]
      · simp [cmdCreatePg, bind_apply, pure_apply, PageSpeedsCreate, invoke, askString_apply,
          askInt, h1, h2, h3, h4, hn, errOf, hu, Printf, emit]
      · simp [isCall]
      · simp [isCall]
      · simp [hu, errOf]

/-! ## Stopping at the first failed call -/

theorem failStop_quiet (out : Res (Option GoError)) (ps : List Event)
    (h : ∀ e ∈ ps, isCall e = false) : failStop out ps := by
  induction ps with
  | nil => trivial
  | cons e rest ih =>
    have hr : failStop out rest := ih (fun x hx => h x (List.mem_cons_of_mem _ hx))
    have he : isCall e = false := h e (List.mem_cons_self _ _)
    cases e with
    | call k r => simp [isCall] at he
    | printf f a => simpa [failStop] using hr
    | println a => simpa [failStop] using hr
    | logPrintf f a => simpa [failStop] using hr
    | logPrint a => simpa [failStop] using hr

theorem failStop_cons_quiet (out : Res (Option GoError)) (e : Event) (es : List Event)
    (he : isCall e = false) : failStop out (e :: es) ↔ failStop out es := by
  cases e with
  | call k r => simp [isCall] at he
  | printf f a => simp [failStop]
  | println a => simp [failStop]
  | logPrintf f a => simp [failStop]
  | logPrint a => simp [failStop]

theorem failStop_append_quiet (out : Res (Option GoError)) (ps es : List Event)
    (h : ∀ e ∈ ps, isCall e = false) : failStop out (ps ++ es) ↔ failStop out es := by
  induction ps with
  | nil => simp
  | cons e rest ih =>
    rw [List.cons_append, failStop_cons_quiet out e _ (h e (List.mem_cons_self _ _))]
    exact ih (fun x hx => h x (List.mem_cons_of_mem _ hx))

theorem failStop_call_none (out : Res (Option GoError)) (k : Call) (es : List Event) :
    failStop out (Event.call k none :: es) ↔ failStop out es := by
  simp [failStop]

theorem failStop_call_some (out : Res (Option GoError)) (k : Call) (e : GoError)
    (es : List Event) :
    failStop out (Event.call k (some e) :: es) ↔ es = [] ∧ out = Res.val (some e) := by
  simp [failStop]

/-- What `failStop` means on the trace: a failed call has nothing after it and
its error is the result. -/
theorem failStop_decomp (out : Res (Option GoError)) (es : List Event)
    (h : failStop out es) :
    ∀ pre k e post, es = pre ++ Event.call k (some e) :: post →
      post = [] ∧ out = Res.val (some e) := by
  induction es with
  | nil =>
    intro pre k e post hes
    simp at hes
  | cons x rest ih =>
    intro pre k e post hes
    cases pre with
    | nil =>
      simp only [List.nil_append, List.cons.injEq] at hes
      obtain ⟨hx, hrest⟩ := hes
      subst hx
      subst hrest
      exact (failStop_call_some out k e _).mp h
    | cons p pre2 =>
      simp only [List.cons_append, List.cons.injEq] at hes
      obtain ⟨hx, hrest⟩ := hes
      subst hx
      have hr : failStop out rest := by
        cases x with
        | call k2 r =>
          cases r with
          | none => exact (failStop_call_none out k2 rest).mp h
          | some e2 =>
            have := ((failStop_call_some out k2 e2 rest).mp h).1
            rw [this] at hrest
            simp at hrest
        | printf f a => simpa [failStop] using h
        | println a => simpa [failStop] using h
        | logPrintf f a => simpa [failStop] using h
        | logPrint a => simpa [failStop] using h
      exact ih hr pre2 k e post hrest

/-- A handler that returned `nil` after `failStop` events made no failed call. -/
theorem failStop_nil (es : List Event) (h : failStop (Res.val none) es) :
    ∀ k r, Event.call k r ∈ es → r = none := by
  intro k r hmem
  cases r with
  | none => rfl
  | some e =>
    obtain ⟨pre, post, hes⟩ := List.append_of_mem hmem
    have := (failStop_decomp _ es h pre k e post hes).2
    simp at this

/-! ## Every handler stops at the first failed call -/

theorem cmdList_failStop (c : Client σ) (args : List String) (w : World σ) :
    ∃ es, (cmdList c args w).2.trace = w.trace ++ es ∧ failStop (cmdList c args w).1 es := by
  rcases hd : c.testsAll w.stub with ⟨rd, s1⟩
  cases rd with
  | error e =>
    rw [cmdList_fail c args e s1 w hd]
    exact ⟨_, rfl, by simp [failStop]⟩
  | ok ts =>
    obtain ⟨ps, h, q⟩ := cmdList_ok c args ts s1 w hd
    rw [h]
    exact ⟨_, rfl, (failStop_call_none _ _ _).mpr (failStop_quiet _ _ q)⟩

theorem cmdListSsl_failStop (c : Client σ) (args : List String) (w : World σ) :
    ∃ es, (cmdListSsl c args w).2.trace = w.trace ++ es ∧
      failStop (cmdListSsl c args w).1 es := by
  rcases hd : c.sslsAll w.stub with ⟨rd, s1⟩
  cases rd with
  | error e =>
    rw [cmdListSsl_fail c args e s1 w hd]
    exact ⟨_, rfl, by simp [failStop]⟩
  | ok ts =>
    obtain ⟨ps, h, q⟩ := cmdListSsl_ok c args ts s1 w hd
    rw [h]
    exact ⟨_, rfl, (failStop_call_none _ _ _).mpr (failStop_quiet _ _ q)⟩

theorem cmdListPg_failStop (c : Client σ) (args : List String) (w : World σ) :
    ∃ es, (cmdListPg c args w).2.trace = w.trace ++ es ∧
      failStop (cmdListPg c args w).1 es := by
  rcases hd : c.pageSpeedsAll w.stub with ⟨rd, s1⟩
  cases rd with
  | error e =>
    rw [cmdListPg_fail c args e s1 w hd]
    exact ⟨_, rfl, by simp [failStop]⟩
  | ok ts =>
    obtain ⟨ps, h, q⟩ := cmdListPg_ok c args ts s1 w hd
    rw [h]
    exact ⟨_, rfl, (failStop_call_none _ _ _).mpr (failStop_quiet _ _ q)⟩

/-- An argument list is a single argument or has a length other than one. -/
theorem args_cases (args : List String) : args.length ≠ 1 ∨ ∃ a, args = [a] := by
  rcases args with _ | ⟨a, _ | ⟨b, rest⟩⟩
  · left; simp
  · right; exact ⟨a, rfl⟩
  · left; simp

theorem cmdDetail_failStop (c : Client σ) (args : List String) (w : World σ) :
    ∃ es, (cmdDetail c args w).2.trace = w.trace ++ es ∧
      failStop (cmdDetail c args w).1 es := by
  rcases args_cases args with hlen | ⟨a, rfl⟩
  · rw [cmdDetail_usage c args w hlen]
    exact ⟨[], by simp, trivial⟩
  · cases ha : Atoi a with
    | error e =>
      rw [cmdDetail_atoi c a e w ha]
      exact ⟨[], by simp, trivial⟩
    | ok id =>
      rcases hd : c.testsDetail w.stub id with ⟨rd, s1⟩
      cases rd with
      | error e =>
        rw [cmdDetail_fail c a id e s1 w ha hd]
        exact ⟨_, rfl, by simp [failStop]⟩
      | ok t =>
        obtain ⟨ps, h, q⟩ := cmdDetail_ok c a id t s1 w ha hd
        rw [h]
        exact ⟨_, rfl, (failStop_call_none _ _ _).mpr (failStop_quiet _ _ q)⟩

theorem cmdDetailPg_failStop (c : Client σ) (args : List String) (w : World σ) :
    ∃ es, (cmdDetailPg c args w).2.trace = w.trace ++ es ∧
      failStop (cmdDetailPg c args w).1 es := by
  rcases args_cases args with hlen | ⟨a, rfl⟩
  · rw [cmdDetailPg_usage c args w hlen]
    exact ⟨[], by simp, trivial⟩
  · cases ha : Atoi a with
    | error e =>
      rw [cmdDetailPg_atoi c a e w ha]
      exact ⟨[], by simp, trivial⟩
    | ok id =>
      rcases hd : c.pageSpeedsDetail w.stub id with ⟨rd, s1⟩
      cases rd with
      | error e =>
        rw [cmdDetailPg_fail c a id e s1 w ha hd]
        exact ⟨_, rfl, by simp [failStop]⟩
      | ok t =>
        obtain ⟨ps, h, q⟩ := cmdDetailPg_ok c a id t s1 w ha hd
        rw [h]
        exact ⟨_, rfl, (failStop_call_none _ _ _).mpr (failStop_quiet _ _ q)⟩

theorem cmdDelete_failStop (c : Client σ) (args : List String) (w : World σ) :
    ∃ es, (cmdDelete c args w).2.trace = w.trace ++ es ∧
      failStop (cmdDelete c args w).1 es := by
  rcases args_cases args with hlen | ⟨a, rfl⟩
  · rw [cmdDelete_usage c args w hlen]
    exact ⟨[], by simp, trivial⟩
  · cases ha : Atoi a with
    | error e =>
      rw [cmdDelete_atoi c a e w ha]
      exact ⟨[], by simp, trivial⟩
    | ok id =>
      rw [cmdDelete_ok c a id w ha]
      refine ⟨_, rfl, ?_⟩
      cases (c.testsDelete w.stub id).1 <;> simp [failStop]

theorem cmdDeletePg_failStop (c : Client σ) (args : List String) (w : World σ) :
    ∃ es, (cmdDeletePg c args w).2.trace = w.trace ++ es ∧
      failStop (cmdDeletePg c args w).1 es := by
  rcases args_cases args with hlen | ⟨a, rfl⟩
  · rw [cmdDeletePg_usage c args w hlen]
    exact ⟨[], by simp, trivial⟩
  · cases ha : Atoi a with
    | error e =>
      rw [cmdDeletePg_atoi c a e w ha]
      exact ⟨[], by simp, trivial⟩
    | ok id =>
      rw [cmdDeletePg_ok c a id w ha]
      refine ⟨_, rfl, ?_⟩
      cases (c.pageSpeedsDelete w.stub id).1 <;> simp [failStop]

/-- The events of a submission stop at the first failed call. -/
theorem failStop_submit (k : Call) (r : Option GoError) (ps qs : List Event)
    (hp : ∀ e ∈ ps, isCall e = false) (hq : ∀ e ∈ qs, isCall e = false)
    (hr : ∀ e, r = some e → qs = []) :
    failStop (Res.val r) (ps ++ Event.call k r :: qs) := by
  rw [failStop_append_quiet _ _ _ hp]
  cases r with
  | none => exact (failStop_call_none _ _ _).mpr (failStop_quiet _ _ hq)
  | some e => exact (failStop_call_some _ _ _ _).mpr ⟨hr e rfl, rfl⟩

theorem cmdUpdate_failStop (c : Client σ) (args : List String) (w : World σ) :
    ∃ es, (cmdUpdate c args w).2.trace = w.trace ++ es ∧
      failStop (cmdUpdate c args w).1 es := by
  rcases args_cases args with hlen | ⟨a, rfl⟩
  · rw [cmdUpdate_usage c args w hlen]
    exact ⟨[], by simp, trivial⟩
  · cases ha : Atoi a with
    | error e =>
      rw [cmdUpdate_atoi c a e w ha]
      exact ⟨[], by simp, trivial⟩
    | ok id =>
      rcases hd : c.testsDetail w.stub id with ⟨rd, s1⟩
      cases rd with
      | error e =>
        rw [cmdUpdate_fail c a id e s1 w ha hd]
        exact ⟨_, rfl, by simp [failStop]⟩
      | ok R =>
        rcases cmdUpdate_run c a id R s1 w ha hd with
          ⟨inp, ps, h, q⟩ | ⟨a1, a2, a3, a4, a5, a6, n, rest, T, ps, qs, _, _, _, h, hp, hq, hr⟩
        · rw [h]
          exact ⟨_, rfl, (failStop_call_none _ _ _).mpr (failStop_quiet _ _ q)⟩
        · rw [h]
          exact ⟨_, rfl, (failStop_call_none _ _ _).mpr (failStop_submit _ _ ps qs hp hq hr)⟩

theorem cmdUpdatePg_failStop (c : Client σ) (args : List String) (w : World σ) :
    ∃ es, (cmdUpdatePg c args w).2.trace = w.trace ++ es ∧
      failStop (cmdUpdatePg c args w).1 es := by
  rcases args_cases args with hlen | ⟨a, rfl⟩
  · rw [cmdUpdatePg_usage c args w hlen]
    exact ⟨[], by simp, trivial⟩
  · cases ha : Atoi a with
    | error e =>
      rw [cmdUpdatePg_atoi c a e w ha]
      exact ⟨[], by simp, trivial⟩
    | ok id =>
      rcases hd : c.pageSpeedsDetail w.stub id with ⟨rd, s1⟩
      cases rd with
      | error e =>
        rw [cmdUpdatePg_fail c a id e s1 w ha hd]
        exact ⟨_, rfl, by simp [failStop]⟩
      | ok R =>
        rcases cmdUpdatePg_run c a id R s1 w ha hd with
          ⟨inp, ps, h, q⟩ | ⟨a1, rest, T, ps, qs, _, _, h, hp, hq, hr⟩
        · rw [h]
          exact ⟨_, rfl, (failStop_call_none _ _ _).mpr (failStop_quiet _ _ q)⟩
        · rw [h]
          exact ⟨_, rfl, (failStop_call_none _ _ _).mpr (failStop_submit _ _ ps qs hp hq hr)⟩

theorem cmdCreate_failStop (c : Client σ) (args : List String) (w : World σ) :
    ∃ es, (cmdCreate c args w).2.trace = w.trace ++ es ∧
      failStop (cmdCreate c args w).1 es := by
  rcases cmdCreate_run c args w with
    ⟨inp, ps, h, q⟩ | ⟨a1, a2, a3, a4, a5, a6, n, rest, T, ps, qs, _, _, _, h, hp, hq, hr⟩
  · rw [h]
    exact ⟨_, rfl, failStop_quiet _ _ q⟩
  · rw [h]
    exact ⟨_, rfl, failStop_submit _ _ ps qs hp hq hr⟩

theorem cmdCreatePg_failStop (c : Client σ) (args : List String) (w : World σ) :
    ∃ es, (cmdCreatePg c args w).2.trace = w.trace ++ es ∧
      failStop (cmdCreatePg c args w).1 es := by
  rcases cmdCreatePg_run c args w with
    ⟨inp, ps, h, q⟩ | ⟨a1, a2, a3, a4, n, rest, T, ps, qs, _, _, _, h, hp, hq, hr⟩
  · rw [h]
    exact ⟨_, rfl, failStop_quiet _ _ q⟩
  · rw [h]
    exact ⟨_, rfl, failStop_submit _ _ ps qs hp hq hr⟩

/-- The handlers of the table. -/
theorem commands_lookup (v : String) (h : Command σ)
    (hv : (commands : List (String × Command σ)).lookup v = some h) :
    h = cmdList ∨ h = cmdListPg ∨ h = cmdListSsl ∨ h = cmdDetail ∨ h = cmdDetailPg ∨
    h = cmdDelete ∨ h = cmdDeletePg ∨ h = cmdCreate ∨ h = cmdCreatePg ∨ h = cmdUpdate ∨
    h = cmdUpdatePg := by
  simp only [commands, List.lookup] at hv
  repeat' split at hv
  all_goals first
    | (simp only [Option.some.injEq] at hv; subst hv; simp)
    | simp at hv

/-! ## The calls a handler makes -/

theorem call_not_mem_quiet (ps : List Event) (hp : ∀ e ∈ ps, isCall e = false) (x : Call)
    (rx : Option GoError) : Event.call x rx ∉ ps := by
  intro hm
  have := hp _ hm
  simp [isCall] at this

/-- The calls among the events of a fetch followed by a submission. -/
theorem call_mem_submit (k0 k : Call) (r : Option GoError) (ps qs : List Event)
    (hp : ∀ e ∈ ps, isCall e = false) (hq : ∀ e ∈ qs, isCall e = false) (x : Call)
    (rx : Option GoError)
    (hm : Event.call x rx ∈ Event.call k0 none :: (ps ++ Event.call k r :: qs)) :
    x = k0 ∨ x = k := by
  rcases List.mem_cons.mp hm with h | h
  · left
    simp only [Event.call.injEq] at h
    exact h.1
  · rcases List.mem_append.mp h with h | h
    · exact absurd h (call_not_mem_quiet ps hp x rx)
    · rcases List.mem_cons.mp h with h | h
      · right
        simp only [Event.call.injEq] at h
        exact h.1
      · exact absurd h (call_not_mem_quiet qs hq x rx)

theorem cmdUpdate_calls (c : Client σ) (args : List String) (w : World σ) (es : List Event)
    (htr : (cmdUpdate c args w).2.trace = w.trace ++ es) (x : Call) (rx : Option GoError)
    (hmem : Event.call x rx ∈ es) :
    ∃ a id, args = [a] ∧ Atoi a = .ok id ∧
      (x = Call.testsDetail id ∨
        ∃ R s1 a1 a2 a3 a4 a5 a6 n rest,
          c.testsDetail w.stub id = (.ok R, s1) ∧
          readWords 6 w.stdin = some ([a1, a2, a3, a4, a5, a6], rest) ∧ Atoi a4 = .ok n ∧
          x = Call.testsUpdate { R with
                TestID := id, WebsiteName := a1, WebsiteURL := a2, TestType := a3,
                CheckRate := n, ContactGroup := Split a5, NodeLocations := Split a6 }) := by
  rcases args_cases args with hlen | ⟨a, rfl⟩
  · rw [cmdUpdate_usage c args w hlen] at htr
    have h0 : es = [] := by simpa using htr
    subst h0
    simp at hmem
  · cases ha : Atoi a with
    | error e =>
      rw [cmdUpdate_atoi c a e w ha] at htr
      have h0 : es = [] := by simpa using htr
      subst h0
      simp at hmem
    | ok id =>
      refine ⟨a, id, rfl, ha, ?_⟩
      rcases hd : c.testsDetail w.stub id with ⟨rd, s1⟩
      cases rd with
      | error e =>
        rw [cmdUpdate_fail c a id e s1 w ha hd] at htr
        have h0 := (List.append_cancel_left htr).symm
        rw [h0] at hmem
        left
        simp only [List.mem_singleton, Event.call.injEq] at hmem
        exact hmem.1
      | ok R =>
        rcases cmdUpdate_run c a id R s1 w ha hd with
          ⟨inp, ps, h, q⟩ | ⟨a1, a2, a3, a4, a5, a6, n, rest, T, ps, qs, hw, hn, hT, h, hp, hq, _⟩
        · rw [h] at htr
          have h0 := (List.append_cancel_left htr).symm
          rw [h0] at hmem
          rcases List.mem_cons.mp hmem with hm | hm
          · left
            simp only [Event.call.injEq] at hm
            exact hm.1
          · exact absurd hm (call_not_mem_quiet ps q x rx)
        · rw [h] at htr
          have h0 := (List.append_cancel_left htr).symm
          rw [h0] at hmem
          rcases call_mem_submit _ _ _ ps qs hp hq x rx hmem with hx | hx
          · exact Or.inl hx
          · right
            exact ⟨R, s1, a1, a2, a3, a4, a5, a6, n, rest, rfl, hw, hn, hx.trans (by rw [hT])⟩

theorem cmdUpdatePg_calls (c : Client σ) (args : List String) (w : World σ) (es : List Event)
    (htr : (cmdUpdatePg c args w).2.trace = w.trace ++ es) (x : Call) (rx : Option GoError)
    (hmem : Event.call x rx ∈ es) :
    ∃ a id, args = [a] ∧ Atoi a = .ok id ∧
      (x = Call.pageSpeedsDetail id ∨
        ∃ R s1 a1 rest,
          c.pageSpeedsDetail w.stub id = (.ok R, s1) ∧
          readWords 1 w.stdin = some ([a1], rest) ∧
          x = Call.pageSpeedsUpdate { R with ID := id, Website_url := a1 }) := by
  rcases args_cases args with hlen | ⟨a, rfl⟩
  · rw [cmdUpdatePg_usage c args w hlen] at htr
    have h0 : es = [] := by simpa using htr
    subst h0
    simp at hmem
  · cases ha : Atoi a with
    | error e =>
      rw [cmdUpdatePg_atoi c a e w ha] at htr
      have h0 : es = [] := by simpa using htr
      subst h0
      simp at hmem
    | ok id =>
      refine ⟨a, id, rfl, ha, ?_⟩
      rcases hd : c.pageSpeedsDetail w.stub id with ⟨rd, s1⟩
      cases rd with
      | error e =>
        rw [cmdUpdatePg_fail c a id e s1 w ha hd] at htr
        have h0 := (List.append_cancel_left htr).symm
        rw [h0] at hmem
        left
        simp only [List.mem_singleton, Event.call.injEq] at hmem
        exact hmem.1
      | ok R =>
        rcases cmdUpdatePg_run c a id R s1 w ha hd with
          ⟨inp, ps, h, q⟩ | ⟨a1, rest, T, ps, qs, hw, hT, h, hp, hq, _⟩
        · rw [h] at htr
          have h0 := (List.append_cancel_left htr).symm
          rw [h0] at hmem
          rcases List.mem_cons.mp hmem with hm | hm
          · left
            simp only [Event.call.injEq] at hm
            exact hm.1
          · exact absurd hm (call_not_mem_quiet ps q x rx)
        · rw [h] at htr
          have h0 := (List.append_cancel_left htr).symm
          rw [h0] at hmem
          rcases call_mem_submit _ _ _ ps qs hp hq x rx hmem with hx | hx
          · exact Or.inl hx
          · right
            exact ⟨R, s1, a1, rest, rfl, hw, hx.trans (by rw [hT])⟩

theorem cmdCreate_calls (c : Client σ) (args : List String) (w : World σ) (es : List Event)
    (htr : (cmdCreate c args w).2.trace = w.trace ++ es) (x : Call) (rx : Option GoError)
    (hmem : Event.call x rx ∈ es) :
    ∃ a1 a2 a3 a4 a5 a6 n rest,
      readWords 6 w.stdin = some ([a1, a2, a3, a4, a5, a6], rest) ∧ Atoi a4 = .ok n ∧
      x = Call.testsUpdate
        { TestID := 0, Paused := false, WebsiteName := a1, WebsiteURL := a2, PingURL := "",
          TestType := a3, CheckRate := n, ContactGroup := Split a5,
          NodeLocations := Split a6, Status := "", Uptime := Float64.mk 0,
          rest := Rest.mk 0 } := by
  rcases cmdCreate_run c args w with
    ⟨inp, ps, h, q⟩ | ⟨a1, a2, a3, a4, a5, a6, n, rest, T, ps, qs, hw, hn, hT, h, hp, hq, _⟩
  · rw [h] at htr
    have h0 := (List.append_cancel_left htr).symm
    rw [h0] at hmem
    exact absurd hmem (call_not_mem_quiet ps q x rx)
  · rw [h] at htr
    have h0 := (List.append_cancel_left htr).symm
    rw [h0] at hmem
    rcases List.mem_append.mp hmem with hm | hm
    · exact absurd hm (call_not_mem_quiet ps hp x rx)
    · rcases List.mem_cons.mp hm with hm | hm
      · simp only [Event.call.injEq] at hm
        exact ⟨a1, a2, a3, a4, a5, a6, n, rest, hw, hn, hm.1.trans (by rw [hT])⟩
      · exact absurd hm (call_not_mem_quiet qs hq x rx)

theorem cmdDetail_calls (c : Client σ) (args : List String) (w : World σ) (es : List Event)
    (htr : (cmdDetail c args w).2.trace = w.trace ++ es) (x : Call) (rx : Option GoError)
    (hmem : Event.call x rx ∈ es) :
    ∃ a id, args = [a] ∧ Atoi a = .ok id ∧ x = Call.testsDetail id := by
  rcases args_cases args with hlen | ⟨a, rfl⟩
  · rw [cmdDetail_usage c args w hlen] at htr
    have h0 : es = [] := by simpa using htr
    subst h0
    simp at hmem
  · cases ha : Atoi a with
    | error e =>
      rw [cmdDetail_atoi c a e w ha] at htr
      have h0 : es = [] := by simpa using htr
      subst h0
      simp at hmem
    | ok id =>
      refine ⟨a, id, rfl, ha, ?_⟩
      rcases hd : c.testsDetail w.stub id with ⟨rd, s1⟩
      cases rd with
      | error e =>
        rw [cmdDetail_fail c a id e s1 w ha hd] at htr
        have h0 := (List.append_cancel_left htr).symm
        rw [h0] at hmem
        simp only [List.mem_singleton, Event.call.injEq] at hmem
        exact hmem.1
      | ok R =>
        obtain ⟨ps, h, q⟩ := cmdDetail_ok c a id R s1 w ha hd
        rw [h] at htr
        have h0 := (List.append_cancel_left htr).symm
        rw [h0] at hmem
        rcases List.mem_cons.mp hmem with hm | hm
        · simp only [Event.call.injEq] at hm
          exact hm.1
        · exact absurd hm (call_not_mem_quiet ps q x rx)

theorem cmdDetailPg_calls (c : Client σ) (args : List String) (w : World σ) (es : List Event)
    (htr : (cmdDetailPg c args w).2.trace = w.trace ++ es) (x : Call) (rx : Option GoError)
    (hmem : Event.call x rx ∈ es) :
    ∃ a id, args = [a] ∧ Atoi a = .ok id ∧ x = Call.pageSpeedsDetail id := by
  rcases args_cases args with hlen | ⟨a, rfl⟩
  · rw [cmdDetailPg_usage c args w hlen] at htr
    have h0 : es = [] := by simpa using htr
    subst h0
    simp at hmem
  · cases ha : Atoi a with
    | error e =>
      rw [cmdDetailPg_atoi c a e w ha] at htr
      have h0 : es = [] := by simpa using htr
      subst h0
      simp at hmem
    | ok id =>
      refine ⟨a, id, rfl, ha, ?_⟩
      rcases hd : c.pageSpeedsDetail w.stub id with ⟨rd, s1⟩
      cases rd with
      | error e =>
        rw [cmdDetailPg_fail c a id e s1 w ha hd] at htr
        have h0 := (List.append_cancel_left htr).symm
        rw [h0] at hmem
        simp only [List.mem_singleton, Event.call.injEq] at hmem
        exact hmem.1
      | ok R =>
        obtain ⟨ps, h, q⟩ := cmdDetailPg_ok c a id R s1 w ha hd
        rw [h] at htr
        have h0 := (List.append_cancel_left htr).symm
        rw [h0] at hmem
        rcases List.mem_cons.mp hmem with hm | hm
        · simp only [Event.call.injEq] at hm
          exact hm.1
        · exact absurd hm (call_not_mem_quiet ps q x rx)

theorem cmdDelete_calls (c : Client σ) (args : List String) (w : World σ) (es : List Event)
    (htr : (cmdDelete c args w).2.trace = w.trace ++ es) (x : Call) (rx : Option GoError)
    (hmem : Event.call x rx ∈ es) :
    ∃ a id, args = [a] ∧ Atoi a = .ok id ∧ x = Call.testsDelete id := by
  rcases args_cases args with hlen | ⟨a, rfl⟩
  · rw [cmdDelete_usage c args w hlen] at htr
    have h0 : es = [] := by simpa using htr
    subst h0
    simp at hmem
  · cases ha : Atoi a with
    | error e =>
      rw [cmdDelete_atoi c a e w ha] at htr
      have h0 : es = [] := by simpa using htr
      subst h0
      simp at hmem
    | ok id =>
      refine ⟨a, id, rfl, ha, ?_⟩
      rw [cmdDelete_ok c a id w ha] at htr
      have h0 := (List.append_cancel_left htr).symm
      rw [h0] at hmem
      simp only [List.mem_singleton, Event.call.injEq] at hmem
      exact hmem.1

theorem cmdDeletePg_calls (c : Client σ) (args : List String) (w : World σ) (es : List Event)
    (htr : (cmdDeletePg c args w).2.trace = w.trace ++ es) (x : Call) (rx : Option GoError)
    (hmem : Event.call x rx ∈ es) :
    ∃ a id, args = [a] ∧ Atoi a = .ok id ∧ x = Call.pageSpeedsDelete id := by
  rcases args_cases args with hlen | ⟨a, rfl⟩
  · rw [cmdDeletePg_usage c args w hlen] at htr
    have h0 : es = [] := by simpa using htr
    subst h0
    simp at hmem
  · cases ha : Atoi a with
    | error e =>
      rw [cmdDeletePg_atoi c a e w ha] at htr
      have h0 : es = [] := by simpa using htr
      subst h0
      simp at hmem
    | ok id =>
      refine ⟨a, id, rfl, ha, ?_⟩
      rw [cmdDeletePg_ok c a id w ha] at htr
      have h0 := (List.append_cancel_left htr).symm
      rw [h0] at hmem
      simp only [List.mem_singleton, Event.call.injEq] at hmem
      exact hmem.1

/-! ## Facts on the prompt and on the argument -/

theorem Scanln_newline (rest : List Char) :
    Scanln ('\n' :: rest) = (.error (GoError.text "unexpected newline"), rest) := by
  simp [Scanln, skipSpace]

theorem skipSpace_none (inp : List Char) (r : Char) (rs : List Char)
    (h : skipSpace inp = (none, r :: rs)) : isSpace r = false := by
  induction inp with
  | nil => simp [skipSpace] at h
  | cons x xs ih =>
    simp only [skipSpace] at h
    split at h
    · simp at h
    · split at h
      · exact ih h
      · simp only [Prod.mk.injEq, List.cons.injEq, true_and] at h
        rw [← h.1]
        simpa using ‹¬ isSpace x = true›

theorem Scanln_ok_ne_empty (inp : List Char) (v : String) (rest : List Char)
    (h : Scanln inp = (.ok v, rest)) : v ≠ "" := by
  unfold Scanln at h
  split at h
  · simp at h
  · simp at h
  · rename_i r rs hs
    have hr := skipSpace_none inp r rs hs
    split at h
    · simp at h
    · simp only [Prod.mk.injEq, Except.ok.injEq] at h
      rw [← h.1]
      simp [token, hr]
      intro hh
      have := congrArg String.data hh
      simp at this

theorem Atoi_error (a : String) (e : GoError) (h : Atoi a = .error e) :
    ∃ k, e = GoError.num "Atoi" a k := by
  unfold Atoi at h
  split at h
  · simp at h
  · rename_i k _
    simp only [Except.error.injEq] at h
    exact ⟨k, h.symm⟩

theorem readWords_head (k : Nat) (inp : List Char) (v : String) (vs : List String)
    (rest : List Char) (h : readWords (k + 1) inp = some (v :: vs, rest)) :
    ∃ r1, Scanln inp = (.ok v, r1) := by
  simp only [readWords] at h
  split at h
  · rename_i v1 r1 hs
    split at h
    · simp only [Option.some.injEq, Prod.mk.injEq, List.cons.injEq] at h
      exact ⟨r1, by rw [hs, h.1.1]⟩
    · simp at h
  · simp at h

theorem runCommand_unknown (c : Client σ) (rest : List String) (w : World σ) (v : String)
    (hv : v ∉ ["list", "listpagespeed", "listssl", "detail", "detailpg", "delete", "deletepg",
        "create", "createpg", "update", "updatepg"]) :
    runCommand c v rest w =
      (Res.val (some (GoError.text ("Unknown command `" ++ v ++ "`"))), w) := by
  simp only [List.mem_cons, List.mem_singleton, not_or, List.not_mem_nil, not_false_eq_true,
    and_true] at hv
  obtain ⟨h1, h2, h3, h4, h5, h6, h7, h8, h9, h10, h11⟩ := hv
  have e1 : (v == "list") = false := beq_eq_false_iff_ne.mpr h1
  have e2 : (v == "listpagespeed") = false := beq_eq_false_iff_ne.mpr h2
  have e3 : (v == "listssl") = false := beq_eq_false_iff_ne.mpr h3
  have e4 : (v == "detail") = false := beq_eq_false_iff_ne.mpr h4
  have e5 : (v == "detailpg") = false := beq_eq_false_iff_ne.mpr h5
  have e6 : (v == "delete") = false := beq_eq_false_iff_ne.mpr h6
  have e7 : (v == "deletepg") = false := beq_eq_false_iff_ne.mpr h7
  have e8 : (v == "create") = false := beq_eq_false_iff_ne.mpr h8
  have e9 : (v == "createpg") = false := beq_eq_false_iff_ne.mpr h9
  have e10 : (v == "update") = false := beq_eq_false_iff_ne.mpr h10
  have e11 : (v == "updatepg") = false := beq_eq_false_iff_ne.mpr h11
  simp only [runCommand, commands, List.lookup, e1, e2, e3, e4, e5, e6, e7, e8, e9, e10, e11,
    pure_apply]

/-! ## Decimal numerals -/

theorem digitChar_digit (d : Nat) (h : d < 10) :
    ('0' ≤ Nat.digitChar d ∧ Nat.digitChar d ≤ '9') ∧
      (Nat.digitChar d).toNat - '0'.toNat = d ∧ Nat.digitChar d ≠ '+' ∧
      Nat.digitChar d ≠ '-' := by
  interval_cases d <;> decide

theorem parseUintLoop_digit (v d : Nat) (ds : List Char) (hd : d < 10)
    (hv : v * 10 + d ≤ maxUint64) :
    parseUintLoop v (Nat.digitChar d :: ds) = parseUintLoop (v * 10 + d) ds := by
  obtain ⟨h1, h2, _, _⟩ := digitChar_digit d hd
  have hc : ¬ v ≥ uintCutoff := by
    simp only [uintCutoff, maxUint64] at *
    omega
  have hm : ¬ v * 10 + d > maxUint64 := by omega
  simp only [parseUintLoop, h1, and_self, if_true, hc, if_false, h2, hm]

theorem parseUintLoop_toDigitsCore (fuel : Nat) : ∀ (n : Nat) (ds : List Char),
    n < fuel → n ≤ maxUint64 →
    parseUintLoop 0 (Nat.toDigitsCore 10 fuel n ds) = parseUintLoop n ds := by
  induction fuel with
  | zero => intro n ds h; omega
  | succ fuel ih =>
    intro n ds hf hn
    have hmod : n % 10 < 10 := Nat.mod_lt _ (by decide)
    simp only [Nat.toDigitsCore]
    split
    · rename_i h0
      have : n = n % 10 := by omega
      rw [parseUintLoop_digit 0 (n % 10) ds hmod (by omega)]
      congr 1
      omega
    · rename_i h0
      rw [ih (n / 10) _ (by omega) (by omega),
        parseUintLoop_digit (n / 10) (n % 10) ds hmod (by omega)]
      congr 1
      omega

theorem toDigitsCore_head (fuel : Nat) : ∀ (n : Nat) (ds : List Char), n < fuel →
    ∃ d rest, d < 10 ∧ Nat.toDigitsCore 10 fuel n ds = Nat.digitChar d :: rest := by
  induction fuel with
  | zero => intro n ds h; omega
  | succ fuel ih =>
    intro n ds hf
    simp only [Nat.toDigitsCore]
    split
    · exact ⟨n % 10, ds, Nat.mod_lt _ (by decide), rfl⟩
    · exact ih (n / 10) _ (by omega)

theorem ParseUint_toDigits (n : Nat) (hn : n ≤ maxUint64) :
    ParseUint (Nat.toDigits 10 n) = .ok n := by
  obtain ⟨d, rest, _, h⟩ := toDigitsCore_head (n + 1) n [] (by omega)
  have := parseUintLoop_toDigitsCore (n + 1) n [] (by omega) hn
  simp only [Nat.toDigits, ParseUint] at *
  rw [h] at this ⊢
  simpa [parseUintLoop] using this

/-- `Atoi` parses the decimal numeral of every 64-bit integer to that integer. -/
theorem Atoi_toString (m : Int) (hlo : -(2 : Int) ^ 63 ≤ m) (hhi : m < (2 : Int) ^ 63) :
    Atoi (toString m) = .ok m := by
  cases m with
  | ofNat n =>
    have hn : n < 2 ^ 63 := by
      have : (n : Int) < 2 ^ 63 := hhi
      exact_mod_cast this
    obtain ⟨d, rest, hd, h⟩ := toDigitsCore_head (n + 1) n [] (by omega)
    obtain ⟨_, _, hp, hm⟩ := digitChar_digit d hd
    have hu := ParseUint_toDigits n (by simp only [maxUint64]; omega)
    have hdata : (toString (Int.ofNat n)).data = Nat.toDigits 10 n := rfl
    simp only [Nat.toDigits] at hu hdata
    rw [h] at hu hdata
    simp only [Atoi, hdata, ParseInt, hp, hm, or_self, if_false, hu, intCutoff]
    simp [hm]
    rw [if_neg (by omega)]
  | negSucc n =>
    have hn : n + 1 ≤ 2 ^ 63 := by
      have : -(2 : Int) ^ 63 ≤ Int.negSucc n := hlo
      rw [Int.negSucc_eq] at this
      omega
    have hu := ParseUint_toDigits (n + 1) (by simp only [maxUint64]; omega)
    have hdata : (toString (Int.negSucc n)).data = '-' :: Nat.toDigits 10 (n + 1) := rfl
    simp only [Atoi, hdata, ParseInt, or_true, if_true, hu, intCutoff]
    simp [Int.negSucc_eq]
    rw [if_neg (by omega)]

/-! ## Words read and empty answers -/

theorem readWords_ne_empty (k : Nat) : ∀ (inp : List Char) (vs : List String)
    (rest : List Char), readWords k inp = some (vs, rest) → ∀ v ∈ vs, v ≠ "" := by
  induction k with
  | zero =>
    intro inp vs rest h v hv
    simp only [readWords, Option.some.injEq, Prod.mk.injEq] at h
    rw [← h.1] at hv
    simp at hv
  | succ k ih =>
    intro inp vs rest h v hv
    simp only [readWords] at h
    split at h
    · rename_i v1 r1 hs
      split at h
      · rename_i vs1 out hr
        simp only [Option.some.injEq, Prod.mk.injEq] at h
        rw [← h.1] at hv
        rcases List.mem_cons.mp hv with hv | hv
        · rw [hv]
          exact Scanln_ok_ne_empty _ _ _ hs
        · exact ih r1 vs1 out hr v hv
      · simp at h
    · simp at h

theorem readWords_succ (k : Nat) (inp : List Char) :
    readWords (k + 1) inp =
      match Scanln inp with
      | (.ok v, rest) =>
        match readWords k rest with
        | some (vs, out) => some (v :: vs, out)
        | none => none
      | (.error _, _) => none := rfl

/-- After `k` words, an empty line makes every longer run of reads fail. -/
theorem readWords_empty_line (k : Nat) : ∀ (inp : List Char) (vs : List String)
    (rest : List Char), readWords k inp = some (vs, '\n' :: rest) →
    ∀ j, readWords (k + j + 1) inp = none := by
  induction k with
  | zero =>
    intro inp vs rest h j
    simp only [readWords, Option.some.injEq, Prod.mk.injEq] at h
    rw [h.2]
    simp only [Nat.zero_add, readWords, Scanln_newline]
  | succ k ih =>
    intro inp vs rest h j
    simp only [readWords] at h
    split at h
    · rename_i v1 r1 hs
      split at h
      · rename_i vs1 out hr
        simp only [Option.some.injEq, Prod.mk.injEq] at h
        rw [h.2] at hr
        have e : k + 1 + j + 1 = (k + j + 1) + 1 := by omega
        have hi := ih r1 vs1 rest hr j
        rw [e, readWords_succ]
        simp only [hs, hi]
      · simp at h
    · simp at h

theorem Split_ne_empty_word (a : String) (h : a ≠ "") : Split a ≠ [""] := by
  intro hs
  have hj := (Split_spec a).2.2
  rw [hs] at hj
  exact h hj.symm

/-- `cmdCreate` when an answer is an empty line: the process ends and no call
is made. -/
theorem cmdCreate_empty (c : Client σ) (args : List String) (w : World σ) (k : Nat)
    (vs : List String) (rest : List Char) (hk : k < 6)
    (he : readWords k w.stdin = some (vs, '\n' :: rest)) :
    (cmdCreate c args w).1 = Res.exit 1 ∧
      ∀ es, (cmdCreate c args w).2.trace = w.trace ++ es → ∀ e ∈ es, isCall e = false := by
  rcases cmdCreate_run c args w with
    ⟨inp, ps, h, q⟩ | ⟨a1, a2, a3, a4, a5, a6, n, r, T, ps, qs, hw, _⟩
  · rw [h]
    refine ⟨rfl, ?_⟩
    intro es htr
    have h0 := (List.append_cancel_left htr).symm
    rw [h0]
    exact q
  · have hnone := readWords_empty_line k w.stdin vs rest he (5 - k)
    have e : k + (5 - k) + 1 = 6 := by omega
    rw [e, hw] at hnone
    simp at hnone

/-- `cmdUpdate` when an answer is an empty line: the process ends and `Update`
is not called. -/
theorem cmdUpdate_empty (c : Client σ) (a : String) (id : Int) (R : Test) (s1 : σ)
    (w : World σ) (k : Nat) (vs : List String) (rest : List Char)
    (ha : Atoi a = .ok id) (hd : c.testsDetail w.stub id = (.ok R, s1)) (hk : k < 6)
    (he : readWords k w.stdin = some (vs, '\n' :: rest)) :
    (cmdUpdate c [a] w).1 = Res.exit 1 ∧
      ∀ es, (cmdUpdate c [a] w).2.trace = w.trace ++ es →
        ∀ t r, Event.call (Call.testsUpdate t) r ∉ es := by
  rcases cmdUpdate_run c a id R s1 w ha hd with
    ⟨inp, ps, h, q⟩ | ⟨a1, a2, a3, a4, a5, a6, n, r, T, ps, qs, hw, _⟩
  · rw [h]
    refine ⟨rfl, ?_⟩
    intro es htr t r hmem
    have h0 := (List.append_cancel_left htr).symm
    rw [h0] at hmem
    rcases List.mem_cons.mp hmem with hm | hm
    · simp at hm
    · exact call_not_mem_quiet ps q _ r hm
  · have hnone := readWords_empty_line k w.stdin vs rest he (5 - k)
    have e : k + (5 - k) + 1 = 6 := by omega
    rw [e, hw] at hnone
    simp at hnone

/-- `cmdUpdatePg` when the answer is an empty line: the process ends and
`Update` is not called. -/
theorem cmdUpdatePg_empty (c : Client σ) (a : String) (id : Int) (R : PageSpeed) (s1 : σ)
    (w : World σ) (rest : List Char)
    (ha : Atoi a = .ok id) (hd : c.pageSpeedsDetail w.stub id = (.ok R, s1))
    (he : w.stdin = '\n' :: rest) :
    (cmdUpdatePg c [a] w).1 = Res.exit 1 ∧
      ∀ es, (cmdUpdatePg c [a] w).2.trace = w.trace ++ es →
        ∀ t r, Event.call (Call.pageSpeedsUpdate t) r ∉ es := by
  rcases cmdUpdatePg_run c a id R s1 w ha hd with
    ⟨inp, ps, h, q⟩ | ⟨a1, r, T, ps, qs, hw, _⟩
  · rw [h]
    refine ⟨rfl, ?_⟩
    intro es htr t r hmem
    have h0 := (List.append_cancel_left htr).symm
    rw [h0] at hmem
    rcases List.mem_cons.mp hmem with hm | hm
    · simp at hm
    · exact call_not_mem_quiet ps q _ r hm
  · have hnone := readWords_empty_line 0 w.stdin [] rest (by simp [readWords, he]) 0
    rw [hw] at hnone
    simp at hnone

/-! ## The properties of the specification -/

/-- C1: router dispatch is total and exact over the command table.  Each of
the eleven registered verbs runs exactly the handler registered for it, on the
remaining arguments; for any other string `v` (a case variant such as "List",
the empty string) no handler runs: the world is left as it was and the error
is "Unknown command `v`". -/
theorem runCommand_dispatch (c : Client σ) (rest : List String) (w : World σ) :
    (runCommand c "list" rest w = cmdList c rest w ∧
     runCommand c "listpagespeed" rest w = cmdListPg c rest w ∧
     runCommand c "listssl" rest w = cmdListSsl c rest w ∧
     runCommand c "detail" rest w = cmdDetail c rest w ∧
     runCommand c "detailpg" rest w = cmdDetailPg c rest w ∧
     runCommand c "delete" rest w = cmdDelete c rest w ∧
     runCommand c "deletepg" rest w = cmdDeletePg c rest w ∧
     runCommand c "create" rest w = cmdCreate c rest w ∧
     runCommand c "createpg" rest w = cmdCreatePg c rest w ∧
     runCommand c "update" rest w = cmdUpdate c rest w ∧
     runCommand c "updatepg" rest w = cmdUpdatePg c rest w) ∧
    (∀ v, v ∉ ["list", "listpagespeed", "listssl", "detail", "detailpg", "delete",
        "deletepg", "create", "createpg", "update", "updatepg"] →
      runCommand c v rest w =
        (Res.val (some (GoError.text ("Unknown command `" ++ v ++ "`"))), w)) :=
  ⟨⟨rfl, rfl, rfl, rfl, rfl, rfl, rfl, rfl, rfl, rfl, rfl⟩,
    fun v hv => runCommand_unknown c rest w v hv⟩

/-- C1 on the case variant "List": no handler runs. -/
theorem runCommand_dispatch_witness :
    runCommand stubOk "List" ["42"] (startWorld "") =
      (Res.val (some (GoError.text ("Unknown command `" ++ "List" ++ "`"))), startWorld "") :=
  (runCommand_dispatch stubOk ["42"] (startWorld "")).2 "List" (by decide)

/-- C2: a handler that requires an identity argument, given an argument list
whose length is not one, returns its usage error and leaves the world as it
was: no collaborator call, no prompt, nothing read. -/
theorem identity_handlers_usage (c : Client σ) (args : List String) (w : World σ)
    (h : args.length ≠ 1) :
    cmdDetail c args w =
      (Res.val (some (Errorf "command `detail` requires a single argument `TestID`")), w) ∧
    cmdDetailPg c args w =
      (Res.val (some (Errorf "command `detail` requires a single argument `TestID`")), w) ∧
    cmdDelete c args w =
      (Res.val (some (Errorf "command `delete` requires a single argument `TestID`")), w) ∧
    cmdDeletePg c args w =
      (Res.val (some (Errorf "command `delete` requires a single argument `ID`")), w) ∧
    cmdUpdate c args w =
      (Res.val (some (Errorf "command `update` requires a single argument `TestID`")), w) ∧
    cmdUpdatePg c args w =
      (Res.val (some (Errorf "command `update` requires a single argument `TestID`")), w) :=
  ⟨cmdDetail_usage c args w h, cmdDetailPg_usage c args w h, cmdDelete_usage c args w h,
    cmdDeletePg_usage c args w h, cmdUpdate_usage c args w h, cmdUpdatePg_usage c args w h⟩

/-- C2 with two arguments. -/
theorem identity_handlers_usage_witness :
    (["1", "2"] : List String).length ≠ 1 ∧
    cmdDelete stubOk ["1", "2"] (startWorld "") =
      (Res.val (some (Errorf "command `delete` requires a single argument `TestID`")),
        startWorld "") :=
  ⟨by decide, (identity_handlers_usage stubOk ["1", "2"] (startWorld "") (by decide)).2.2.1⟩

/-- C3: a handler that requires an identity argument, given one argument that
`strconv.Atoi` rejects, returns the error of `Atoi` (a `NumError` on that
argument) and leaves the world as it was; conversely a run of such a handler
that makes a collaborator call had one argument, which `Atoi` parsed. -/
theorem identity_handlers_validation (c : Client σ) (w : World σ) :
    (∀ a e, Atoi a = .error e →
      (∃ k, e = GoError.num "Atoi" a k) ∧
      cmdDetail c [a] w = (Res.val (some e), w) ∧
      cmdDetailPg c [a] w = (Res.val (some e), w) ∧
      cmdDelete c [a] w = (Res.val (some e), w) ∧
      cmdDeletePg c [a] w = (Res.val (some e), w) ∧
      cmdUpdate c [a] w = (Res.val (some e), w) ∧
      cmdUpdatePg c [a] w = (Res.val (some e), w)) ∧
    (∀ h ∈ ([cmdDetail, cmdDetailPg, cmdDelete, cmdDeletePg, cmdUpdate, cmdUpdatePg] :
          List (Command σ)),
      ∀ args es k r, (h c args w).2.trace = w.trace ++ es → Event.call k r ∈ es →
        ∃ a id, args = [a] ∧ Atoi a = .ok id) := by
  refine ⟨fun a e h => ⟨Atoi_error a e h, cmdDetail_atoi c a e w h, cmdDetailPg_atoi c a e w h,
    cmdDelete_atoi c a e w h, cmdDeletePg_atoi c a e w h, cmdUpdate_atoi c a e w h,
    cmdUpdatePg_atoi c a e w h⟩, ?_⟩
  intro h hh args es k r htr hmem
  simp only [List.mem_cons, List.mem_singleton, List.not_mem_nil, or_false] at hh
  rcases hh with rfl | rfl | rfl | rfl | rfl | rfl
  · obtain ⟨a, id, h1, h2, _⟩ := cmdDetail_calls c args w es htr k r hmem
    exact ⟨a, id, h1, h2⟩
  · obtain ⟨a, id, h1, h2, _⟩ := cmdDetailPg_calls c args w es htr k r hmem
    exact ⟨a, id, h1, h2⟩
  · obtain ⟨a, id, h1, h2, _⟩ := cmdDelete_calls c args w es htr k r hmem
    exact ⟨a, id, h1, h2⟩
  · obtain ⟨a, id, h1, h2, _⟩ := cmdDeletePg_calls c args w es htr k r hmem
    exact ⟨a, id, h1, h2⟩
  · obtain ⟨a, id, h1, h2, _⟩ := cmdUpdate_calls c args w es htr k r hmem
    exact ⟨a, id, h1, h2⟩
  · obtain ⟨a, id, h1, h2, _⟩ := cmdUpdatePg_calls c args w es htr k r hmem
    exact ⟨a, id, h1, h2⟩

/-- C3 on the argument "4x2": the update handler returns the syntax error of
`Atoi` and makes no call. -/
theorem identity_handlers_validation_witness :
    Atoi "4x2" = .error (GoError.num "Atoi" "4x2" NumErrKind.ErrSyntax) ∧
    cmdUpdate stubOk ["4x2"] (startWorld "") =
      (Res.val (some (GoError.num "Atoi" "4x2" NumErrKind.ErrSyntax)), startWorld "") :=
  ⟨by decide,
    ((identity_handlers_validation stubOk (startWorld "")).1 "4x2"
      (GoError.num "Atoi" "4x2" NumErrKind.ErrSyntax) (by decide)).2.2.2.2.2.1⟩

/-- C4: identity forcing in the update flow.  Whatever record `Detail`
answered and whatever was typed, a record that `cmdUpdate` submits to
`Update` has `TestID` equal to the id parsed from the argument, and a record
that `cmdUpdatePg` submits has `ID` equal to it. -/
theorem update_forces_identity (c : Client σ) (args : List String) (w : World σ)
    (es : List Event) :
    ((cmdUpdate c args w).2.trace = w.trace ++ es →
      ∀ t r, Event.call (Call.testsUpdate t) r ∈ es →
        ∃ a, args = [a] ∧ Atoi a = .ok t.TestID) ∧
    ((cmdUpdatePg c args w).2.trace = w.trace ++ es →
      ∀ t r, Event.call (Call.pageSpeedsUpdate t) r ∈ es →
        ∃ a, args = [a] ∧ Atoi a = .ok t.ID) := by
  constructor
  · intro htr t r hmem
    obtain ⟨a, id, h1, h2, h3⟩ := cmdUpdate_calls c args w es htr _ r hmem
    rcases h3 with h3 | ⟨R, s1, a1, a2, a3, a4, a5, a6, n, rest, _, _, _, h3⟩
    · simp at h3
    · simp only [Call.testsUpdate.injEq] at h3
      subst h3
      exact ⟨a, h1, h2⟩
  · intro htr t r hmem
    obtain ⟨a, id, h1, h2, h3⟩ := cmdUpdatePg_calls c args w es htr _ r hmem
    rcases h3 with h3 | ⟨R, s1, a1, rest, _, _, h3⟩
    · simp at h3
    · simp only [Call.pageSpeedsUpdate.injEq] at h3
      subst h3
      exact ⟨a, h1, h2⟩

/-- C4 on `update 42` with a stub whose `Detail` answers a record of identity
7: the record submitted has identity 42. -/
theorem update_forces_identity_witness :
    sampleTest.TestID = 7 ∧
    Event.call (Call.testsUpdate submittedSample) none ∈
      (cmdUpdate stubOk ["42"] (startWorld updateInput)).2.trace ∧
    ∃ a, ["42"] = [a] ∧ Atoi a = .ok submittedSample.TestID :=
  ⟨by decide, by decide,
    (update_forces_identity stubOk ["42"] (startWorld updateInput)
      (cmdUpdate stubOk ["42"] (startWorld updateInput)).2.trace).1 rfl submittedSample none
      (by decide)⟩

/-- C5 as stated fails on its own example: when the empty line is the answer
for `ContactGroup` in the create flow, no record with the list `[""]` is
submitted; the process ends with status 1 after logging "unexpected newline"
and makes no call. -/
theorem empty_list_answer_counterexample :
    cmdCreate stubOk [] (startWorld "name\nurl\nHTTP\n60\n\nuk\n") =
      (Res.exit 1,
        { stub := 0, stdin := "uk\n".data,
          trace := [Event.printf "%s: " [Val.str "WebsiteName"],
                    Event.printf "%s: " [Val.str "WebsiteURL"],
                    Event.printf "%s: " [Val.str "TestType"],
                    Event.printf "%s: " [Val.str "CheckRate"],
                    Event.printf "%s: " [Val.str "ContactGroup (comma separated list)"],
                    Event.logPrint [Val.err (GoError.text "unexpected newline")]] }) := by
  decide

/-- C5, amended: list fields are split on `,` with no trimming and no dropping
of empty segments.  "a,b,c" gives the three elements; `strings.Split` maps ""
to the one element "", but "" is never an answer: an empty line at any prompt
of `cmdCreate` or `cmdUpdate` ends the process before a record is submitted,
the fifth and sixth words read are not empty, and no submitted record holds
`[""]` in `ContactGroup` or `NodeLocations`.  For every string the split has
one element more than the string has commas, no element contains a comma, and
joining the elements with `,` gives the string back; the `ContactGroup` and
`NodeLocations` of a submitted record are the splits of the fifth and sixth
words read. -/
theorem list_fields_split_nonempty (c : Client σ) (args : List String) (w : World σ)
    (es : List Event) :
    Split "a,b,c" = ["a", "b", "c"] ∧ Split "" = [""] ∧
    (∀ s, (Split s).length = s.data.count ',' + 1 ∧ (∀ x ∈ Split s, ',' ∉ x.data) ∧
      Join (Split s) = s) ∧
    ((cmdCreate c args w).2.trace = w.trace ++ es →
      ∀ t r, Event.call (Call.testsUpdate t) r ∈ es →
        ∃ a1 a2 a3 a4 a5 a6 rest,
          readWords 6 w.stdin = some ([a1, a2, a3, a4, a5, a6], rest) ∧
          a5 ≠ "" ∧ a6 ≠ "" ∧
          t.ContactGroup = Split a5 ∧ t.NodeLocations = Split a6 ∧
          t.ContactGroup ≠ [""] ∧ t.NodeLocations ≠ [""]) ∧
    ((cmdUpdate c args w).2.trace = w.trace ++ es →
      ∀ t r, Event.call (Call.testsUpdate t) r ∈ es →
        ∃ a1 a2 a3 a4 a5 a6 rest,
          readWords 6 w.stdin = some ([a1, a2, a3, a4, a5, a6], rest) ∧
          a5 ≠ "" ∧ a6 ≠ "" ∧
          t.ContactGroup = Split a5 ∧ t.NodeLocations = Split a6 ∧
          t.ContactGroup ≠ [""] ∧ t.NodeLocations ≠ [""]) ∧
    (∀ k vs rest, k < 6 → readWords k w.stdin = some (vs, '\n' :: rest) →
      (cmdCreate c args w).1 = Res.exit 1 ∧
      ((cmdCreate c args w).2.trace = w.trace ++ es → ∀ e ∈ es, isCall e = false)) ∧
    (∀ a id R s1 k vs rest, Atoi a = .ok id → c.testsDetail w.stub id = (.ok R, s1) →
      k < 6 → readWords k w.stdin = some (vs, '\n' :: rest) →
      (cmdUpdate c [a] w).1 = Res.exit 1 ∧
      ((cmdUpdate c [a] w).2.trace = w.trace ++ es →
        ∀ t r, Event.call (Call.testsUpdate t) r ∉ es)) := by
  refine ⟨by decide, by decide, Split_spec, ?_, ?_, ?_, ?_⟩
  · intro htr t r hmem
    obtain ⟨a1, a2, a3, a4, a5, a6, n, rest, hw, _, hx⟩ :=
      cmdCreate_calls c args w es htr _ r hmem
    simp only [Call.testsUpdate.injEq] at hx
    subst hx
    have hne := readWords_ne_empty 6 w.stdin _ rest hw
    have h5 : a5 ≠ "" := hne a5 (by simp)
    have h6 : a6 ≠ "" := hne a6 (by simp)
    exact ⟨a1, a2, a3, a4, a5, a6, rest, hw, h5, h6, rfl, rfl, Split_ne_empty_word a5 h5,
      Split_ne_empty_word a6 h6⟩
  · intro htr t r hmem
    obtain ⟨a, id, _, _, h3⟩ := cmdUpdate_calls c args w es htr _ r hmem
    rcases h3 with h3 | ⟨R, s1, a1, a2, a3, a4, a5, a6, n, rest, _, hw, _, h3⟩
    · simp at h3
    · simp only [Call.testsUpdate.injEq] at h3
      subst h3
      have hne := readWords_ne_empty 6 w.stdin _ rest hw
      have h5 : a5 ≠ "" := hne a5 (by simp)
      have h6 : a6 ≠ "" := hne a6 (by simp)
      exact ⟨a1, a2, a3, a4, a5, a6, rest, hw, h5, h6, rfl, rfl, Split_ne_empty_word a5 h5,
        Split_ne_empty_word a6 h6⟩
  · intro k vs rest hk he
    obtain ⟨h1, h2⟩ := cmdCreate_empty c args w k vs rest hk he
    exact ⟨h1, h2 es⟩
  · intro a id R s1 k vs rest ha hd hk he
    obtain ⟨h1, h2⟩ := cmdUpdate_empty c a id R s1 w k vs rest ha hd hk he
    exact ⟨h1, h2 es⟩

/-- C5, amended, on a run of `create` where "a,b,c" is typed for
`ContactGroup`. -/
theorem list_fields_split_nonempty_witness :
    createdSample.ContactGroup = ["a", "b", "c"] ∧
    Event.call (Call.testsUpdate createdSample) none ∈
      (cmdCreate stubOk [] (startWorld createInput)).2.trace ∧
    ∃ a1 a2 a3 a4 a5 a6 rest,
      readWords 6 (startWorld createInput).stdin = some ([a1, a2, a3, a4, a5, a6], rest) ∧
      a5 ≠ "" ∧ a6 ≠ "" ∧
      createdSample.ContactGroup = Split a5 ∧ createdSample.NodeLocations = Split a6 ∧
      createdSample.ContactGroup ≠ [""] ∧ createdSample.NodeLocations ≠ [""] :=
  ⟨by decide, by decide,
    (list_fields_split_nonempty stubOk [] (startWorld createInput)
      (cmdCreate stubOk [] (startWorld createInput)).2.trace).2.2.2.1 rfl createdSample none
      (by decide)⟩

/-- C6: `cmdDelete` and `cmdDeletePg`, given one argument that `Atoi` parses
as `n`, call `Delete` of their collection once, with id `n`, make no other
call, print nothing, read nothing, and return what `Delete` returned; the
decimal numeral of every 64-bit integer `n` is such an argument. -/
theorem delete_calls_once (c : Client σ) (w : World σ) :
    (∀ a n, Atoi a = .ok n →
      cmdDelete c [a] w =
        (Res.val (c.testsDelete w.stub n).1,
          { stub := (c.testsDelete w.stub n).2, stdin := w.stdin,
            trace := w.trace ++
              [Event.call (Call.testsDelete n) (c.testsDelete w.stub n).1] }) ∧
      cmdDeletePg c [a] w =
        (Res.val (c.pageSpeedsDelete w.stub n).1,
          { stub := (c.pageSpeedsDelete w.stub n).2, stdin := w.stdin,
            trace := w.trace ++
              [Event.call (Call.pageSpeedsDelete n) (c.pageSpeedsDelete w.stub n).1] })) ∧
    (∀ n : Int, -(2 : Int) ^ 63 ≤ n → n < (2 : Int) ^ 63 → Atoi (toString n) = .ok n) :=
  ⟨fun a n ha => ⟨cmdDelete_ok c a n w ha, cmdDeletePg_ok c a n w ha⟩, Atoi_toString⟩

/-- C6 on `delete 42`: one call of `Delete(42)`, counted by the stub, `nil`
returned, no output. -/
theorem delete_calls_once_witness :
    Atoi "42" = .ok 42 ∧
    cmdDelete stubOk ["42"] (startWorld "") =
      (Res.val none,
        { stub := 1, stdin := [], trace := [Event.call (Call.testsDelete 42) none] }) :=
  ⟨by decide, ((delete_calls_once stubOk (startWorld "")).1 "42" 42 (by decide)).1⟩

/-- C7: handlers never swallow collaborator errors.  For every handler of the
table, the events of a run extend the trace, a failed collaborator call is the
last event of the run (no call follows it) and its error, unchanged, is what
the handler returns; a handler that returns `nil` made no failed call. -/
theorem handlers_propagate (c : Client σ) (v : String) (h : Command σ) (args : List String)
    (w : World σ) (hv : (commands : List (String × Command σ)).lookup v = some h) :
    ∃ es, (h c args w).2.trace = w.trace ++ es ∧
      (∀ pre k e post, es = pre ++ Event.call k (some e) :: post →
        post = [] ∧ (h c args w).1 = Res.val (some e)) ∧
      ((h c args w).1 = Res.val none → ∀ k r, Event.call k r ∈ es → r = none) := by
  have key : ∃ es, (h c args w).2.trace = w.trace ++ es ∧ failStop (h c args w).1 es := by
    rcases commands_lookup v h hv with
      rfl | rfl | rfl | rfl | rfl | rfl | rfl | rfl | rfl | rfl | rfl
    · exact cmdList_failStop c args w
    · exact cmdListPg_failStop c args w
    · exact cmdListSsl_failStop c args w
    · exact cmdDetail_failStop c args w
    · exact cmdDetailPg_failStop c args w
    · exact cmdDelete_failStop c args w
    · exact cmdDeletePg_failStop c args w
    · exact cmdCreate_failStop c args w
    · exact cmdCreatePg_failStop c args w
    · exact cmdUpdate_failStop c args w
    · exact cmdUpdatePg_failStop c args w
  obtain ⟨es, h1, h2⟩ := key
  refine ⟨es, h1, failStop_decomp _ es h2, ?_⟩
  intro hn
  rw [hn] at h2
  exact failStop_nil es h2

/-- C7 on `update 42` with a stub whose `Detail` fails. -/
theorem handlers_propagate_witness :
    cmdUpdate stubFail ["42"] (startWorld updateInput) =
      (Res.val (some notFound),
        { stub := 1, stdin := updateInput.data,
          trace := [Event.call (Call.testsDetail 42) (some notFound)] }) ∧
    ∃ es, (cmdUpdate stubFail ["42"] (startWorld updateInput)).2.trace =
        (startWorld updateInput).trace ++ es ∧
      (∀ pre k e post, es = pre ++ Event.call k (some e) :: post →
        post = [] ∧ (cmdUpdate stubFail ["42"] (startWorld updateInput)).1 = Res.val (some e)) ∧
      ((cmdUpdate stubFail ["42"] (startWorld updateInput)).1 = Res.val none →
        ∀ k r, Event.call k r ∈ es → r = none) :=
  ⟨by decide, handlers_propagate stubFail "update" cmdUpdate ["42"] (startWorld updateInput) rfl⟩

/-- C8 as stated fails: on an empty line `askString` does not return the empty
string, it ends the process with status 1 after logging "unexpected newline";
in the update flow the process ends at the first prompt and `Update` is not
called. -/
theorem askString_empty_line_counterexample :
    askString "WebsiteName [old]" (startWorld "\nurl\n") =
      (Res.exit 1,
        { stub := 0, stdin := "url\n".data,
          trace := [Event.printf "%s: " [Val.str "WebsiteName [old]"],
                    Event.logPrint [Val.err (GoError.text "unexpected newline")]] }) ∧
    (askString "WebsiteName [old]" (startWorld "\nurl\n")).1 ≠ Res.val "" ∧
    cmdUpdate stubOk ["42"] (startWorld "\nurl\n") =
      (Res.exit 1,
        { stub := 1, stdin := "url\n".data,
          trace := [Event.call (Call.testsDetail 42) none,
                    Event.printf "%s: " [Val.str "WebsiteName [old]"],
                    Event.logPrint [Val.err (GoError.text "unexpected newline")]] }) := by
  decide

/-- C8, amended: an empty line is rejected by the field prompter.  On an empty
line `askString` logs "unexpected newline" and ends the process with status 1;
a word it returns is never empty.  In the update flow an empty line at any of
the prompts, the earlier answers having been read, ends the process with
status 1 and `Update` is not called (for an empty first answer the run is
given event by event); a record that is submitted has every prompted field
overwritten with the non-empty word read for it, in the order of the prompts:
`WebsiteName`, `WebsiteURL`, `TestType`, `CheckRate` (the word parsed by
`Atoi`), `ContactGroup` and `NodeLocations` (the words split on `,`) for
`cmdUpdate`, `Website_url` for `cmdUpdatePg`. -/
theorem askString_rejects_empty_line (name : String) (w : World σ) :
    (∀ rest, w.stdin = '\n' :: rest →
      askString name w =
        (Res.exit 1, { w with
          stdin := rest
          trace := w.trace ++ [Event.printf "%s: " [Val.str name],
            Event.logPrint [Val.err (GoError.text "unexpected newline")]] })) ∧
    (∀ v w2, askString name w = (Res.val v, w2) → v ≠ "") ∧
    (∀ (c : Client σ) a id R s1 rest, Atoi a = .ok id →
      c.testsDetail w.stub id = (.ok R, s1) → w.stdin = '\n' :: rest →
      cmdUpdate c [a] w =
        (Res.exit 1,
          { stub := s1, stdin := rest,
            trace := w.trace ++ [Event.call (Call.testsDetail id) none,
              Event.printf "%s: " [Val.str ("WebsiteName [" ++ R.WebsiteName ++ "]")],
              Event.logPrint [Val.err (GoError.text "unexpected newline")]] })) ∧
    (∀ (c : Client σ) args es t r, (cmdUpdate c args w).2.trace = w.trace ++ es →
      Event.call (Call.testsUpdate t) r ∈ es →
        ∃ a1 rest, Scanln w.stdin = (.ok a1, rest) ∧ a1 ≠ "" ∧ t.WebsiteName = a1) ∧
    (∀ (c : Client σ) args es t r, (cmdUpdatePg c args w).2.trace = w.trace ++ es →
      Event.call (Call.pageSpeedsUpdate t) r ∈ es →
        ∃ a1 rest, Scanln w.stdin = (.ok a1, rest) ∧ a1 ≠ "" ∧ t.Website_url = a1) ∧
    (∀ (c : Client σ) a id R s1 k vs rest, Atoi a = .ok id →
      c.testsDetail w.stub id = (.ok R, s1) → k < 6 →
      readWords k w.stdin = some (vs, '\n' :: rest) →
      (cmdUpdate c [a] w).1 = Res.exit 1 ∧
      ∀ es, (cmdUpdate c [a] w).2.trace = w.trace ++ es →
        ∀ t r, Event.call (Call.testsUpdate t) r ∉ es) ∧
    (∀ (c : Client σ) a id R s1 rest, Atoi a = .ok id →
      c.pageSpeedsDetail w.stub id = (.ok R, s1) → w.stdin = '\n' :: rest →
      (cmdUpdatePg c [a] w).1 = Res.exit 1 ∧
      ∀ es, (cmdUpdatePg c [a] w).2.trace = w.trace ++ es →
        ∀ t r, Event.call (Call.pageSpeedsUpdate t) r ∉ es) ∧
    (∀ (c : Client σ) args es t r, (cmdUpdate c args w).2.trace = w.trace ++ es →
      Event.call (Call.testsUpdate t) r ∈ es →
        ∃ a1 a2 a3 a4 a5 a6 n rest,
          readWords 6 w.stdin = some ([a1, a2, a3, a4, a5, a6], rest) ∧ Atoi a4 = .ok n ∧
          a1 ≠ "" ∧ a2 ≠ "" ∧ a3 ≠ "" ∧ a4 ≠ "" ∧ a5 ≠ "" ∧ a6 ≠ "" ∧
          t.WebsiteName = a1 ∧ t.WebsiteURL = a2 ∧ t.TestType = a3 ∧ t.CheckRate = n ∧
          t.ContactGroup = Split a5 ∧ t.NodeLocations = Split a6) := by
  refine ⟨?_, ?_, ?_, ?_, ?_, ?_, ?_, ?_⟩
  · intro rest h
    rw [askString_apply, h, Scanln_newline]
  · intro v w2 h
    rw [askString_apply] at h
    rcases hs : Scanln w.stdin with ⟨r, rest⟩
    rw [hs] at h
    cases r with
    | error e => simp at h
    | ok v1 =>
      simp only [Prod.mk.injEq, Res.val.injEq] at h
      rw [← h.1]
      exact Scanln_ok_ne_empty _ _ _ hs
  · intro c a id R s1 rest ha hd h
    simp [cmdUpdate, ha, hd, bind_apply, pure_apply, TestsDetail, invoke, askString_apply, h,
      Scanln_newline, errOf]
  · intro c args es t r htr hmem
    obtain ⟨a, id, _, _, h3⟩ := cmdUpdate_calls c args w es htr _ r hmem
    rcases h3 with h3 | ⟨R, s1, a1, a2, a3, a4, a5, a6, n, rest, _, hw, _, h3⟩
    · simp at h3
    · simp only [Call.testsUpdate.injEq] at h3
      subst h3
      obtain ⟨r1, hs⟩ := readWords_head 5 w.stdin a1 _ rest hw
      exact ⟨a1, r1, hs, Scanln_ok_ne_empty _ _ _ hs, rfl⟩
  · intro c args es t r htr hmem
    obtain ⟨a, id, _, _, h3⟩ := cmdUpdatePg_calls c args w es htr _ r hmem
    rcases h3 with h3 | ⟨R, s1, a1, rest, _, hw, h3⟩
    · simp at h3
    · simp only [Call.pageSpeedsUpdate.injEq] at h3
      subst h3
      obtain ⟨r1, hs⟩ := readWords_head 0 w.stdin a1 _ rest hw
      exact ⟨a1, r1, hs, Scanln_ok_ne_empty _ _ _ hs, rfl⟩
  · intro c a id R s1 k vs rest ha hd hk he
    exact cmdUpdate_empty c a id R s1 w k vs rest ha hd hk he
  · intro c a id R s1 rest ha hd he
    exact cmdUpdatePg_empty c a id R s1 w rest ha hd he
  · intro c args es t r htr hmem
    obtain ⟨a, id, _, _, h3⟩ := cmdUpdate_calls c args w es htr _ r hmem
    rcases h3 with h3 | ⟨R, s1, a1, a2, a3, a4, a5, a6, n, rest, _, hw, hn, h3⟩
    · simp at h3
    · simp only [Call.testsUpdate.injEq] at h3
      subst h3
      have hne := readWords_ne_empty 6 w.stdin _ rest hw
      exact ⟨a1, a2, a3, a4, a5, a6, n, rest, hw, hn, hne a1 (by simp), hne a2 (by simp),
        hne a3 (by simp), hne a4 (by simp), hne a5 (by simp), hne a6 (by simp),
        rfl, rfl, rfl, rfl, rfl, rfl⟩

/-- C8, amended, on an empty first line, and on `update 42` where the third
answer is an empty line. -/
theorem askString_rejects_empty_line_witness :
    (startWorld "\nurl\n").stdin = '\n' :: "url\n".data ∧
    askString "WebsiteURL [old]" (startWorld "\nurl\n") =
      (Res.exit 1,
        { stub := 0, stdin := "url\n".data,
          trace := [] ++ [Event.printf "%s: " [Val.str "WebsiteURL [old]"],
            Event.logPrint [Val.err (GoError.text "unexpected newline")]] }) ∧
    readWords 2 (startWorld "name\nurl\n\n60\n").stdin =
      some (["name", "url"], '\n' :: "60\n".data) ∧
    (cmdUpdate stubOk ["42"] (startWorld "name\nurl\n\n60\n")).1 = Res.exit 1 :=
  ⟨by decide,
    (askString_rejects_empty_line "WebsiteURL [old]" (startWorld "\nurl\n")).1 "url\n".data
      (by decide),
    by decide,
    ((askString_rejects_empty_line "WebsiteURL [old]" (startWorld "name\nurl\n\n60\n")).2.2.2.2.2.1
      stubOk "42" 42 sampleTest 1 2 ["name", "url"] "60\n".data (by decide) (by decide)
      (by decide) (by decide)).1⟩

/-- C9 as stated fails: `delete 0` is not rejected, `Delete(0)` is called and
`nil` is returned; `detail -5` calls `Detail(-5)`. -/
theorem nonpositive_id_counterexample :
    cmdDelete stubOk ["0"] (startWorld "") =
      (Res.val none,
        { stub := 1, stdin := [], trace := [Event.call (Call.testsDelete 0) none] }) ∧
    (cmdDetail stubOk ["-5"] (startWorld "")).1 = Res.val none ∧
    (cmdDetail stubOk ["-5"] (startWorld "")).2.trace.head? =
      some (Event.call (Call.testsDetail (-5)) none) := by
  decide

/-- C9, amended: the identity argument must be an integer for `Atoi`, its
sign is not checked.  For an argument that parses as `n`, positive or not,
each of the six handlers makes its first collaborator call (`Detail`, or
`Delete` for the delete handlers) with id `n`, and every call it makes carries
the identity `n`. -/
theorem identity_sign_unchecked (c : Client σ) (a : String) (n : Int) (w : World σ)
    (ha : Atoi a = .ok n) :
    (∃ r es, (cmdDetail c [a] w).2.trace =
      w.trace ++ Event.call (Call.testsDetail n) r :: es) ∧
    (∃ r es, (cmdDetailPg c [a] w).2.trace =
      w.trace ++ Event.call (Call.pageSpeedsDetail n) r :: es) ∧
    (∃ r es, (cmdDelete c [a] w).2.trace =
      w.trace ++ Event.call (Call.testsDelete n) r :: es) ∧
    (∃ r es, (cmdDeletePg c [a] w).2.trace =
      w.trace ++ Event.call (Call.pageSpeedsDelete n) r :: es) ∧
    (∃ r es, (cmdUpdate c [a] w).2.trace =
      w.trace ++ Event.call (Call.testsDetail n) r :: es) ∧
    (∃ r es, (cmdUpdatePg c [a] w).2.trace =
      w.trace ++ Event.call (Call.pageSpeedsDetail n) r :: es) ∧
    (∀ h ∈ ([cmdDetail, cmdDetailPg, cmdDelete, cmdDeletePg, cmdUpdate, cmdUpdatePg] :
          List (Command σ)),
      ∀ es k r, (h c [a] w).2.trace = w.trace ++ es → Event.call k r ∈ es →
        callId k = some n) := by
  refine ⟨?_, ?_, ?_, ?_, ?_, ?_, ?_⟩
  · rcases hd : c.testsDetail w.stub n with ⟨rd, s1⟩
    cases rd with
    | error e =>
      rw [cmdDetail_fail c a n e s1 w ha hd]
      exact ⟨_, _, rfl⟩
    | ok R =>
      obtain ⟨ps, h, _⟩ := cmdDetail_ok c a n R s1 w ha hd
      rw [h]
      exact ⟨_, _, rfl⟩
  · rcases hd : c.pageSpeedsDetail w.stub n with ⟨rd, s1⟩
    cases rd with
    | error e =>
      rw [cmdDetailPg_fail c a n e s1 w ha hd]
      exact ⟨_, _, rfl⟩
    | ok R =>
      obtain ⟨ps, h, _⟩ := cmdDetailPg_ok c a n R s1 w ha hd
      rw [h]
      exact ⟨_, _, rfl⟩
  · rw [cmdDelete_ok c a n w ha]
    exact ⟨_, _, rfl⟩
  · rw [cmdDeletePg_ok c a n w ha]
    exact ⟨_, _, rfl⟩
  · rcases hd : c.testsDetail w.stub n with ⟨rd, s1⟩
    cases rd with
    | error e =>
      rw [cmdUpdate_fail c a n e s1 w ha hd]
      exact ⟨_, _, rfl⟩
    | ok R =>
      rcases cmdUpdate_run c a n R s1 w ha hd with
        ⟨inp, ps, h, _⟩ | ⟨a1, a2, a3, a4, a5, a6, m, rest, T, ps, qs, _, _, _, h, _⟩
      · rw [h]
        exact ⟨_, _, rfl⟩
      · rw [h]
        exact ⟨_, _, rfl⟩
  · rcases hd : c.pageSpeedsDetail w.stub n with ⟨rd, s1⟩
    cases rd with
    | error e =>
      rw [cmdUpdatePg_fail c a n e s1 w ha hd]
      exact ⟨_, _, rfl⟩
    | ok R =>
      rcases cmdUpdatePg_run c a n R s1 w ha hd with
        ⟨inp, ps, h, _⟩ | ⟨a1, rest, T, ps, qs, _, _, h, _⟩
      · rw [h]
        exact ⟨_, _, rfl⟩
      · rw [h]
        exact ⟨_, _, rfl⟩
  · intro h hh es k r htr hmem
    simp only [List.mem_cons, List.mem_singleton, List.not_mem_nil, or_false] at hh
    rcases hh with rfl | rfl | rfl | rfl | rfl | rfl
    · obtain ⟨a2, id, h1, h2, h3⟩ := cmdDetail_calls c [a] w es htr k r hmem
      simp only [List.cons.injEq, and_true] at h1
      subst h1
      rw [ha] at h2
      simp only [Except.ok.injEq] at h2
      subst h2
      rw [h3]
      rfl
    · obtain ⟨a2, id, h1, h2, h3⟩ := cmdDetailPg_calls c [a] w es htr k r hmem
      simp only [List.cons.injEq, and_true] at h1
      subst h1
      rw [ha] at h2
      simp only [Except.ok.injEq] at h2
      subst h2
      rw [h3]
      rfl
    · obtain ⟨a2, id, h1, h2, h3⟩ := cmdDelete_calls c [a] w es htr k r hmem
      simp only [List.cons.injEq, and_true] at h1
      subst h1
      rw [ha] at h2
      simp only [Except.ok.injEq] at h2
      subst h2
      rw [h3]
      rfl
    · obtain ⟨a2, id, h1, h2, h3⟩ := cmdDeletePg_calls c [a] w es htr k r hmem
      simp only [List.cons.injEq, and_true] at h1
      subst h1
      rw [ha] at h2
      simp only [Except.ok.injEq] at h2
      subst h2
      rw [h3]
      rfl
    · obtain ⟨a2, id, h1, h2, h3⟩ := cmdUpdate_calls c [a] w es htr k r hmem
      simp only [List.cons.injEq, and_true] at h1
      subst h1
      rw [ha] at h2
      simp only [Except.ok.injEq] at h2
      subst h2
      rcases h3 with h3 | ⟨R, s1, a1, a2, a3, a4, a5, a6, m, rest, _, _, _, h3⟩
      · rw [h3]
        rfl
      · rw [h3]
        rfl
    · obtain ⟨a2, id, h1, h2, h3⟩ := cmdUpdatePg_calls c [a] w es htr k r hmem
      simp only [List.cons.injEq, and_true] at h1
      subst h1
      rw [ha] at h2
      simp only [Except.ok.injEq] at h2
      subst h2
      rcases h3 with h3 | ⟨R, s1, a1, rest, _, _, h3⟩
      · rw [h3]
        rfl
      · rw [h3]
        rfl

/-- C9, amended, on `delete -5`: `Delete(-5)` is the first call. -/
theorem identity_sign_unchecked_witness :
    Atoi "-5" = .ok (-5) ∧
    ∃ r es, (cmdDelete stubOk ["-5"] (startWorld "")).2.trace =
      (startWorld "").trace ++ Event.call (Call.testsDelete (-5)) r :: es :=
  ⟨by decide, (identity_sign_unchecked stubOk "-5" (-5) (startWorld "") (by decide)).2.2.1⟩

/-- C10: update is read-modify-write with a fixed frame.  A record that
`cmdUpdate` submits is the record `R` answered by `Detail(id)` with `TestID`
set to `id` and `WebsiteName`, `WebsiteURL`, `TestType`, `CheckRate`,
`ContactGroup`, `NodeLocations` replaced by the six words read, in that order
(`CheckRate` parsed by `Atoi`, the two lists split on `,`), every other field
being that of `R`; a record that `cmdUpdatePg` submits is `R` with `ID` set to
`id` and `Website_url` replaced by the one word read. -/
theorem update_frame (c : Client σ) (args : List String) (w : World σ) (es : List Event) :
    ((cmdUpdate c args w).2.trace = w.trace ++ es →
      ∀ t r, Event.call (Call.testsUpdate t) r ∈ es →
        ∃ a id R s1 a1 a2 a3 a4 a5 a6 n rest,
          args = [a] ∧ Atoi a = .ok id ∧ c.testsDetail w.stub id = (.ok R, s1) ∧
          readWords 6 w.stdin = some ([a1, a2, a3, a4, a5, a6], rest) ∧ Atoi a4 = .ok n ∧
          t = { TestID := id, Paused := R.Paused, WebsiteName := a1, WebsiteURL := a2,
                PingURL := R.PingURL, TestType := a3, CheckRate := n,
                ContactGroup := Split a5, NodeLocations := Split a6, Status := R.Status,
                Uptime := R.Uptime, rest := R.rest }) ∧
    ((cmdUpdatePg c args w).2.trace = w.trace ++ es →
      ∀ t r, Event.call (Call.pageSpeedsUpdate t) r ∈ es →
        ∃ a id R s1 a1 rest,
          args = [a] ∧ Atoi a = .ok id ∧ c.pageSpeedsDetail w.stub id = (.ok R, s1) ∧
          readWords 1 w.stdin = some ([a1], rest) ∧
          t = { ID := id, Name := R.Name, Website_url := a1, Checkrate := R.Checkrate,
                Location_iso := R.Location_iso, AlertSmaller := R.AlertSmaller,
                rest := R.rest }) := by
  constructor
  · intro htr t r hmem
    obtain ⟨a, id, h1, h2, h3⟩ := cmdUpdate_calls c args w es htr _ r hmem
    rcases h3 with h3 | ⟨R, s1, a1, a2, a3, a4, a5, a6, n, rest, hd, hw, hn, h3⟩
    · simp at h3
    · simp only [Call.testsUpdate.injEq] at h3
      exact ⟨a, id, R, s1, a1, a2, a3, a4, a5, a6, n, rest, h1, h2, hd, hw, hn, h3⟩
  · intro htr t r hmem
    obtain ⟨a, id, h1, h2, h3⟩ := cmdUpdatePg_calls c args w es htr _ r hmem
    rcases h3 with h3 | ⟨R, s1, a1, rest, hd, hw, h3⟩
    · simp at h3
    · simp only [Call.pageSpeedsUpdate.injEq] at h3
      exact ⟨a, id, R, s1, a1, rest, h1, h2, hd, hw, h3⟩

/-- C10 on `update 42` with six answers: the record submitted keeps `Paused`,
`PingURL`, `Status`, `Uptime` of the record fetched. -/
theorem update_frame_witness :
    Event.call (Call.testsUpdate submittedSample) none ∈
      (cmdUpdate stubOk ["42"] (startWorld updateInput)).2.trace ∧
    ∃ a id R s1 a1 a2 a3 a4 a5 a6 n rest,
      ["42"] = [a] ∧ Atoi a = .ok id ∧
      stubOk.testsDetail (startWorld updateInput).stub id = (.ok R, s1) ∧
      readWords 6 (startWorld updateInput).stdin = some ([a1, a2, a3, a4, a5, a6], rest) ∧
      Atoi a4 = .ok n ∧
      submittedSample =
        { TestID := id, Paused := R.Paused, WebsiteName := a1, WebsiteURL := a2,
          PingURL := R.PingURL, TestType := a3, CheckRate := n,
          ContactGroup := Split a5, NodeLocations := Split a6, Status := R.Status,
          Uptime := R.Uptime, rest := R.rest } :=
  ⟨by decide,
    (update_frame stubOk ["42"] (startWorld updateInput)
      (cmdUpdate stubOk ["42"] (startWorld updateInput)).2.trace).1 rfl submittedSample none
      (by decide)⟩

end StatusCake
